import Mathlib

/-!
A shallow embedding of the storage layer of `src/src-tauri/src/main.rs`
(the Benchmaker persistence code). The SQLite database is modelled as an
explicit state (`DbState`); each Rust function that issues SQL statements
becomes a Lean function over that state. Statements that can fail at the
SQLite level (plain `INSERT` hitting a primary-key or foreign-key
constraint, decoding the legacy blob) return
`Except (String × DbState) DbState`: the error carries the state at the
point of failure, because the Rust code runs each statement in its own
implicit transaction (`rusqlite` autocommit; there is no `BEGIN` anywhere
in the source), so statements executed before the failing one remain
applied.

Embedded JSON text columns (`tags`, `models`, `parameters`, `score`) are
modelled as `Option v`: `some v` stands for a string that decodes to `v`,
`none` for text that fails to decode. Serialization of the corresponding
Rust values (`serde_json::to_string`) cannot fail and round-trips, so an
encoder always stores `some v`. `f64` payload fields are modelled as `Rat`
(storage treats them as opaque payloads; no arithmetic is performed).

`ORDER BY` queries are modelled with `List.insertionSort`, a deterministic
stable sort, matching the deterministic order SQLite produces for a fixed
physical row order; physical row order is the list order of each table,
with `INSERT` appending and `UPDATE` editing in place.
-/

-- ============================================================================
-- Data types (mirroring the Rust structs)
-- ============================================================================

structure TestCaseMetadata where
  category : Option String
  difficulty : Option String
  tags : List String
deriving DecidableEq

structure TestCase where
  id : String
  prompt : String
  expected_output : Option String
  scoring_method : String
  weight : Rat
  metadata : TestCaseMetadata
deriving DecidableEq

structure TestSuite where
  id : String
  name : String
  description : Option String
  system_prompt : String
  judge_system_prompt : Option String
  test_cases : List TestCase
  created_at : Int
  updated_at : Int
deriving DecidableEq

structure ScoringResult where
  score : Rat
  confidence : Option Rat
  notes : Option String
  raw_score : Option Rat
  max_score : Option Rat
deriving DecidableEq

structure ModelParameters where
  temperature : Rat
  top_p : Rat
  max_tokens : Int
  frequency_penalty : Rat
  presence_penalty : Rat
deriving DecidableEq

structure TestCaseResult where
  test_case_id : String
  model_id : String
  response : String
  token_count : Option Int
  latency_ms : Option Int
  status : String
  error : Option String
  score : Option ScoringResult
  streamed_content : Option String
deriving DecidableEq

structure RunResult where
  id : String
  test_suite_id : String
  test_suite_name : String
  models : List String
  parameters : ModelParameters
  results : List TestCaseResult
  status : String
  started_at : Int
  completed_at : Option Int
  judge_model : Option String
deriving DecidableEq

structure BenchmakerDb where
  version : Int
  updated_at : Int
  test_suites : List TestSuite
  runs : List RunResult
  active_test_suite_id : Option String
  current_run_id : Option String
deriving DecidableEq

-- ============================================================================
-- Table rows and database state
-- ============================================================================

/-- A row of `test_suites` (schema in `create_normalized_tables`). -/
structure SuiteRow where
  id : String
  name : String
  description : Option String
  system_prompt : String
  judge_system_prompt : Option String
  created_at : Int
  updated_at : Int
deriving DecidableEq

/-- A row of `test_cases`. `tags` is a JSON text column: `some l` is a
string decoding to `l`, `none` is undecodable text. -/
structure CaseRow where
  id : String
  test_suite_id : String
  prompt : String
  expected_output : Option String
  scoring_method : String
  weight : Rat
  category : Option String
  difficulty : Option String
  tags : Option (List String)
  sort_order : Int
deriving DecidableEq

/-- A row of `runs`. `models` and `parameters` are JSON text columns. -/
structure RunRow where
  id : String
  test_suite_id : String
  test_suite_name : String
  models : Option (List String)
  parameters : Option ModelParameters
  status : String
  started_at : Int
  completed_at : Option Int
  judge_model : Option String
deriving DecidableEq

/-- A row of `test_case_results` (surrogate integer key not modelled;
rows are identified by position). `score` is a nullable JSON text column:
outer `none` is SQL NULL, `some none` is undecodable text. -/
structure ResultRow where
  run_id : String
  test_case_id : String
  model_id : String
  response : String
  token_count : Option Int
  latency_ms : Option Int
  status : String
  error : Option String
  score : Option (Option ScoringResult)
  streamed_content : Option String
deriving DecidableEq

deriving instance DecidableEq for Except

/-- The whole SQLite database. Lists hold rows in physical (rowid) order.
`app_state` is the singleton row of `app_state` (or `none` when absent).
`legacy`: `none` = no `benchmaker_snapshot` table; `some none` = table
present without its `id = 1` payload row; `some (some p)` = payload row
present, `p` its decode outcome (`Except.error e` when
`serde_json::from_str` fails with message `e`). -/
structure DbState where
  schema_version : Option Int
  test_suites : List SuiteRow
  test_cases : List CaseRow
  runs : List RunRow
  test_case_results : List ResultRow
  app_state : Option (Option String × Option String)
  legacy : Option (Option (Except String BenchmakerDb))
deriving DecidableEq

/-- `CURRENT_SCHEMA_VERSION` in the Rust source. -/
def CURRENT_SCHEMA_VERSION : Int := 2

/-- Statement outcomes: an error carries the message and the state at the
failure point (no transaction wraps the statements, so prior effects
persist). -/
abbrev DbResult := Except (String × DbState) DbState

-- ============================================================================
-- Encoding / decoding between rows and data-model values
-- ============================================================================

/-- The row written for a test case by the `INSERT INTO test_cases` in
`save_test_suite` / `write_snapshot` / the migration: `sort_order` is the
list index, `tags` the serialized tag list. -/
def encodeCaseRow (suiteId : String) (idx : Nat) (c : TestCase) : CaseRow :=
  { id := c.id
    test_suite_id := suiteId
    prompt := c.prompt
    expected_output := c.expected_output
    scoring_method := c.scoring_method
    weight := c.weight
    category := c.metadata.category
    difficulty := c.metadata.difficulty
    tags := some c.metadata.tags
    sort_order := (idx : Int) }

/-- Row-to-value decoding in `get_test_cases_for_suite`: a tags decode
failure degrades to the empty list (`unwrap_or_default`). -/
def decodeCaseRow (r : CaseRow) : TestCase :=
  { id := r.id
    prompt := r.prompt
    expected_output := r.expected_output
    scoring_method := r.scoring_method
    weight := r.weight
    metadata :=
      { category := r.category
        difficulty := r.difficulty
        tags := r.tags.getD [] } }

/-- The suite row built by the insert arm of the suite upserts. -/
def mkSuiteRow (suite : TestSuite) : SuiteRow :=
  { id := suite.id
    name := suite.name
    description := suite.description
    system_prompt := suite.system_prompt
    judge_system_prompt := suite.judge_system_prompt
    created_at := suite.created_at
    updated_at := suite.updated_at }

/-- Suite shell decoding shared by `get_all_test_suites` and
`get_all_test_suites_internal` (cases supplied separately). -/
def decodeSuiteRow (r : SuiteRow) (cases : List TestCase) : TestSuite :=
  { id := r.id
    name := r.name
    description := r.description
    system_prompt := r.system_prompt
    judge_system_prompt := r.judge_system_prompt
    test_cases := cases
    created_at := r.created_at
    updated_at := r.updated_at }

/-- The run row as supplied to the `INSERT INTO runs` statements
(`models`/`parameters` serialized; serialization cannot fail). -/
def mkRunRow (run : RunResult) : RunRow :=
  { id := run.id
    test_suite_id := run.test_suite_id
    test_suite_name := run.test_suite_name
    models := some run.models
    parameters := some run.parameters
    status := run.status
    started_at := run.started_at
    completed_at := run.completed_at
    judge_model := run.judge_model }

/-- The documented fallback parameters used by `get_all_runs` /
`get_all_runs_internal` when the stored `parameters` text fails to parse. -/
def defaultParameters : ModelParameters :=
  { temperature := 7/10
    top_p := 1
    max_tokens := 1024
    frequency_penalty := 0
    presence_penalty := 0 }

/-- Run shell decoding in `get_all_runs` / `get_all_runs_internal`:
`models` decode failure degrades to `[]`, `parameters` decode failure to
`defaultParameters` (results supplied separately). -/
def decodeRunRow (r : RunRow) (results : List TestCaseResult) : RunResult :=
  { id := r.id
    test_suite_id := r.test_suite_id
    test_suite_name := r.test_suite_name
    models := r.models.getD []
    parameters := r.parameters.getD defaultParameters
    results := results
    status := r.status
    started_at := r.started_at
    completed_at := r.completed_at
    judge_model := r.judge_model }

/-- The result row written by the `INSERT INTO test_case_results`
statements: a `None` score stays NULL, a `Some` score is serialized. -/
def encodeResultRow (runId : String) (res : TestCaseResult) : ResultRow :=
  { run_id := runId
    test_case_id := res.test_case_id
    model_id := res.model_id
    response := res.response
    token_count := res.token_count
    latency_ms := res.latency_ms
    status := res.status
    error := res.error
    score := res.score.map some
    streamed_content := res.streamed_content }

/-- Row-to-value decoding in `get_results_for_run`: NULL score and
undecodable score text both become `none` (`.and_then(|s| parse.ok())`). -/
def decodeResultRow (r : ResultRow) : TestCaseResult :=
  { test_case_id := r.test_case_id
    model_id := r.model_id
    response := r.response
    token_count := r.token_count
    latency_ms := r.latency_ms
    status := r.status
    error := r.error
    score := r.score.join
    streamed_content := r.streamed_content }

-- ============================================================================
-- Individual SQL statements
-- ============================================================================

/-- The `INSERT INTO test_suites ... ON CONFLICT(id) DO UPDATE SET name,
description, system_prompt, judge_system_prompt, updated_at` upsert shared
verbatim by `save_test_suite` and `write_snapshot`. On conflict the
existing row keeps its position and its `created_at`. -/
def upsertSuiteRow (rows : List SuiteRow) (suite : TestSuite) : List SuiteRow :=
  if ∃ r ∈ rows, r.id = suite.id then
    rows.map (fun r =>
      if r.id = suite.id then
        { r with
          name := suite.name
          description := suite.description
          system_prompt := suite.system_prompt
          judge_system_prompt := suite.judge_system_prompt
          updated_at := suite.updated_at }
      else r)
  else rows ++ [mkSuiteRow suite]

/-- The `INSERT INTO runs ... ON CONFLICT(id) DO UPDATE SET status,
completed_at` upsert shared verbatim by `save_run` and `write_snapshot`:
on conflict only `status` and `completed_at` are refreshed. -/
def upsertRunRow (rows : List RunRow) (run : RunResult) : List RunRow :=
  if ∃ r ∈ rows, r.id = run.id then
    rows.map (fun r =>
      if r.id = run.id then
        { r with status := run.status, completed_at := run.completed_at }
      else r)
  else rows ++ [mkRunRow run]

/-- Plain `INSERT INTO test_cases`: fails on a primary-key collision
(`id TEXT PRIMARY KEY`) or a missing parent suite (the schema declares
`FOREIGN KEY (test_suite_id) REFERENCES test_suites(id)` and `open_db`
sets `PRAGMA foreign_keys = ON`). -/
def execInsertTestCase (s : DbState) (row : CaseRow) : DbResult :=
  if ∃ c ∈ s.test_cases, c.id = row.id then
    .error ("UNIQUE constraint failed: test_cases.id", s)
  else if ∃ t ∈ s.test_suites, t.id = row.test_suite_id then
    .ok { s with test_cases := s.test_cases ++ [row] }
  else
    .error ("FOREIGN KEY constraint failed", s)

/-- Plain `INSERT INTO test_case_results`: the surrogate key is
AUTOINCREMENT so only the `run_id` foreign key can fail. -/
def execInsertResult (s : DbState) (row : ResultRow) : DbResult :=
  if ∃ r ∈ s.runs, r.id = row.run_id then
    .ok { s with test_case_results := s.test_case_results ++ [row] }
  else
    .error ("FOREIGN KEY constraint failed", s)

/-- `DELETE FROM test_suites WHERE <p>` under `PRAGMA foreign_keys = ON`:
the `ON DELETE CASCADE` clause on `test_cases.test_suite_id` also removes
every case row referencing a deleted suite. -/
def cascadeDeleteSuites (s : DbState) (p : SuiteRow → Prop) [DecidablePred p] : DbState :=
  let deletedIds := (s.test_suites.filter (fun r => p r)).map (fun r => r.id)
  { s with
    test_suites := s.test_suites.filter (fun r => ¬ p r)
    test_cases := s.test_cases.filter (fun c => c.test_suite_id ∉ deletedIds) }

/-- `DELETE FROM runs WHERE <p>` with the `ON DELETE CASCADE` clause on
`test_case_results.run_id`. -/
def cascadeDeleteRuns (s : DbState) (p : RunRow → Prop) [DecidablePred p] : DbState :=
  let deletedIds := (s.runs.filter (fun r => p r)).map (fun r => r.id)
  { s with
    runs := s.runs.filter (fun r => ¬ p r)
    test_case_results := s.test_case_results.filter (fun c => c.run_id ∉ deletedIds) }

/-- The per-case insert loop of `save_test_suite` / `write_snapshot` /
the migration re-insert, threading the enumeration index used as
`sort_order`; stops at the first failing statement. -/
def insertCaseList (suiteId : String) : Nat → List TestCase → DbState → DbResult
  | _, [], s => .ok s
  | idx, c :: rest, s =>
    match execInsertTestCase s (encodeCaseRow suiteId idx c) with
    | .error e => .error e
    | .ok s1 => insertCaseList suiteId (idx + 1) rest s1

/-- The per-result insert loop of `save_run` / `write_snapshot` / the
migration. -/
def insertResultList (runId : String) : List TestCaseResult → DbState → DbResult
  | [], s => .ok s
  | res :: rest, s =>
    match execInsertResult s (encodeResultRow runId res) with
    | .error e => .error e
    | .ok s1 => insertResultList runId rest s1

-- ============================================================================
-- Entity-level commands (bodies of the Tauri commands, minus `open_db`)
-- ============================================================================

/-- `get_test_cases_for_suite`: `SELECT ... FROM test_cases WHERE
test_suite_id = ? ORDER BY sort_order` then decode each row. -/
def get_test_cases_for_suite (s : DbState) (suiteId : String) : List TestCase :=
  (((s.test_cases.filter (fun c => c.test_suite_id = suiteId)).insertionSort
      (fun a b => a.sort_order ≤ b.sort_order)).map decodeCaseRow)

/-- `get_all_test_suites_internal` (also the body of the
`get_all_test_suites` command): suites ordered by `updated_at DESC`, each
with its ordered cases attached. -/
def get_all_test_suites_internal (s : DbState) : List TestSuite :=
  ((s.test_suites.insertionSort (fun a b => b.updated_at ≤ a.updated_at)).map
    (fun r => decodeSuiteRow r (get_test_cases_for_suite s r.id)))

/-- `get_results_for_run`: `SELECT ... FROM test_case_results WHERE
run_id = ?` (no ORDER BY: physical row order). -/
def get_results_for_run (s : DbState) (runId : String) : List TestCaseResult :=
  (s.test_case_results.filter (fun r => r.run_id = runId)).map decodeResultRow

/-- `get_all_runs_internal` (also the body of the `get_all_runs` command):
runs ordered by `started_at DESC`, each with decoded parameters and its
result list attached. -/
def get_all_runs_internal (s : DbState) : List RunResult :=
  ((s.runs.insertionSort (fun a b => b.started_at ≤ a.started_at)).map
    (fun r => decodeRunRow r (get_results_for_run s r.id)))

/-- `save_test_suite`: upsert the suite row, `DELETE FROM test_cases WHERE
test_suite_id = ?`, then re-insert the supplied cases with `sort_order`
assigned by list index. No transaction wraps the statements. -/
def save_test_suite (s : DbState) (suite : TestSuite) : DbResult :=
  let s1 := { s with test_suites := upsertSuiteRow s.test_suites suite }
  let s2 := { s1 with
    test_cases := s1.test_cases.filter (fun c => c.test_suite_id ≠ suite.id) }
  insertCaseList suite.id 0 suite.test_cases s2

/-- `delete_test_suite`: `DELETE FROM test_suites WHERE id = ?`
(cascading to the suite's cases). -/
def delete_test_suite (s : DbState) (id : String) : DbState :=
  cascadeDeleteSuites s (fun r => r.id = id)

/-- `save_run`: upsert the run row (conflict refreshes only `status` and
`completed_at`), `DELETE FROM test_case_results WHERE run_id = ?`, then
re-insert the supplied results. No transaction wraps the statements. -/
def save_run (s : DbState) (run : RunResult) : DbResult :=
  let s1 := { s with runs := upsertRunRow s.runs run }
  let s2 := { s1 with
    test_case_results := s1.test_case_results.filter (fun r => r.run_id ≠ run.id) }
  insertResultList run.id run.results s2

/-- `delete_run`: `DELETE FROM runs WHERE id = ?` (cascading to the run's
results). -/
def delete_run (s : DbState) (id : String) : DbState :=
  cascadeDeleteRuns s (fun r => r.id = id)

/-- The `UPDATE app_state SET ... WHERE id = 1` statement used by
`write_snapshot` and the migration: updates the singleton row when it
exists, affects no rows otherwise. -/
def updateAppStateRow (s : DbState) (a b : Option String) : DbState :=
  { s with app_state := s.app_state.map (fun _ => (a, b)) }

-- ============================================================================
-- Snapshot facade
-- ============================================================================

/-- `read_snapshot`: compose the aggregate document from the normalized
tables, stamped with the schema version constant and the current time
(`now`, passed explicitly since the clock is an input). -/
def read_snapshot (s : DbState) (now : Int) : BenchmakerDb :=
  let st := s.app_state.getD (none, none)
  { version := CURRENT_SCHEMA_VERSION
    updated_at := now
    test_suites := get_all_test_suites_internal s
    runs := get_all_runs_internal s
    active_test_suite_id := st.1
    current_run_id := st.2 }

/-- The suites loop of `write_snapshot`; its body is statement-for-
statement the body of `save_test_suite`. -/
def writeSuitesLoop : List TestSuite → DbState → DbResult
  | [], s => .ok s
  | suite :: rest, s =>
    match save_test_suite s suite with
    | .error e => .error e
    | .ok s1 => writeSuitesLoop rest s1

/-- The runs loop of `write_snapshot`; its body is statement-for-
statement the body of `save_run`. -/
def writeRunsLoop : List RunResult → DbState → DbResult
  | [], s => .ok s
  | run :: rest, s =>
    match save_run s run with
    | .error e => .error e
    | .ok s1 => writeRunsLoop rest s1

/-- `write_snapshot`: upsert-and-replace-children for every supplied suite
and run, delete suites/runs whose id is not supplied (the Rust code's
non-empty branch issues `DELETE ... WHERE id NOT IN (ids)` and its empty
branch `DELETE` of all rows, which is the same predicate with an empty id
list), then overwrite the app-state pointer row. -/
def write_snapshot (s : DbState) (snapshot : BenchmakerDb) : DbResult :=
  match writeSuitesLoop snapshot.test_suites s with
  | .error e => .error e
  | .ok s1 =>
    let suiteIds := snapshot.test_suites.map (fun t => t.id)
    let s2 := cascadeDeleteSuites s1 (fun r => r.id ∉ suiteIds)
    match writeRunsLoop snapshot.runs s2 with
    | .error e => .error e
    | .ok s3 =>
      let runIds := snapshot.runs.map (fun t => t.id)
      let s4 := cascadeDeleteRuns s3 (fun r => r.id ∉ runIds)
      .ok (updateAppStateRow s4 snapshot.active_test_suite_id snapshot.current_run_id)

-- ============================================================================
-- Schema setup and migration
-- ============================================================================

/-- `create_normalized_tables`: the `CREATE TABLE IF NOT EXISTS` and
`CREATE INDEX IF NOT EXISTS` statements are no-ops in the model (tables
are always represented); the one stateful effect is `INSERT OR IGNORE
INTO app_state (id, ...) VALUES (1, NULL, NULL)`, which creates the
singleton row when absent and leaves it untouched when present. -/
def create_normalized_tables (s : DbState) : DbState :=
  { s with app_state := some (s.app_state.getD (none, none)) }

/-- `INSERT OR REPLACE INTO test_suites` (migration re-insert): REPLACE
deletes any conflicting row first — cascading to its cases, since
foreign keys are ON — and appends the fresh row. -/
def replaceSuiteRow (s : DbState) (suite : TestSuite) : DbState :=
  let s1 := cascadeDeleteSuites s (fun r => r.id = suite.id)
  { s1 with test_suites := s1.test_suites ++ [mkSuiteRow suite] }

/-- `INSERT OR REPLACE INTO test_cases` (migration re-insert): deletes
any same-id case row and appends; the parent-suite foreign key still
applies, and a violation aborts the single statement leaving the state
unchanged. -/
def replaceCaseRow (s : DbState) (row : CaseRow) : DbResult :=
  if ∃ t ∈ s.test_suites, t.id = row.test_suite_id then
    .ok { s with test_cases :=
      (s.test_cases.filter (fun c => c.id ≠ row.id)) ++ [row] }
  else
    .error ("FOREIGN KEY constraint failed", s)

/-- `INSERT OR REPLACE INTO runs` (migration re-insert). -/
def replaceRunRow (s : DbState) (run : RunResult) : DbState :=
  let s1 := cascadeDeleteRuns s (fun r => r.id = run.id)
  { s1 with runs := s1.runs ++ [mkRunRow run] }

/-- The per-case loop of the migration's suite re-insert (enumeration
index becomes `sort_order`, as in `save_test_suite`). -/
def migrateCaseList (suiteId : String) : Nat → List TestCase → DbState → DbResult
  | _, [], s => .ok s
  | idx, c :: rest, s =>
    match replaceCaseRow s (encodeCaseRow suiteId idx c) with
    | .error e => .error e
    | .ok s1 => migrateCaseList suiteId (idx + 1) rest s1

/-- The suites loop of `migrate_from_snapshot`. -/
def migrateSuitesLoop : List TestSuite → DbState → DbResult
  | [], s => .ok s
  | suite :: rest, s =>
    let s1 := replaceSuiteRow s suite
    match migrateCaseList suite.id 0 suite.test_cases s1 with
    | .error e => .error e
    | .ok s2 => migrateSuitesLoop rest s2

/-- The runs loop of `migrate_from_snapshot` (results use the same plain
`INSERT INTO test_case_results` as `save_run`). -/
def migrateRunsLoop : List RunResult → DbState → DbResult
  | [], s => .ok s
  | run :: rest, s =>
    let s1 := replaceRunRow s run
    match insertResultList run.id run.results s1 with
    | .error e => .error e
    | .ok s2 => migrateRunsLoop rest s2

/-- `migrate_from_snapshot`: read the legacy payload row (absent row means
nothing to do — note the `DROP TABLE` sits inside the `if let Some`
block, so an empty legacy table is left in place); a decode failure is
fatal with the error appended to "Failed to parse old snapshot: ";
otherwise re-insert everything and only then drop the legacy table. -/
def migrate_from_snapshot (s : DbState) : DbResult :=
  match s.legacy with
  | none => .error ("no such table: benchmaker_snapshot", s)
  | some none => .ok s
  | some (some (.error e)) => .error ("Failed to parse old snapshot: " ++ e, s)
  | some (some (.ok old)) =>
    match migrateSuitesLoop old.test_suites s with
    | .error e => .error e
    | .ok s1 =>
      match migrateRunsLoop old.runs s1 with
      | .error e => .error e
      | .ok s2 =>
        let s3 := updateAppStateRow s2 old.active_test_suite_id old.current_run_id
        .ok { s3 with legacy := none }

/-- The list of case rows written by an insert loop starting at index
`idx` (pure companion of `insertCaseList` / `migrateCaseList`). -/
def encodedCaseRows (sid : String) : Nat → List TestCase → List CaseRow
  | _, [] => []
  | idx, c :: cs => encodeCaseRow sid idx c :: encodedCaseRows sid (idx + 1) cs

/-- `migrate_database`: read the installed version (0 when the version row
is absent); below the target, ensure the normalized tables, migrate from
the legacy table when it is present and the version predates generation 2,
and only on full success write the new version (upsert on the singleton
version row). -/
def migrate_database (s : DbState) : DbResult :=
  if s.schema_version.getD 0 < CURRENT_SCHEMA_VERSION then
    match (if s.legacy.isSome ∧ s.schema_version.getD 0 < 2 then
        migrate_from_snapshot (create_normalized_tables s)
      else .ok (create_normalized_tables s)) with
    | .error e => .error e
    | .ok s2 => .ok { s2 with schema_version := some CURRENT_SCHEMA_VERSION }
  else
    .ok s

-- ============================================================================
-- Basic lemmas
-- ============================================================================

theorem decodeCaseRow_encodeCaseRow (sid : String) (idx : Nat) (c : TestCase) :
    decodeCaseRow (encodeCaseRow sid idx c) = c := rfl

theorem decodeResultRow_encodeResultRow (rid : String) (res : TestCaseResult) :
    decodeResultRow (encodeResultRow rid res) = res := by
  rcases res with ⟨a, b, c, d, e, f, g, sc, h⟩
  cases sc <;> rfl

theorem encodedCaseRows_map_id (sid : String) :
    ∀ (idx : Nat) (cs : List TestCase),
      (encodedCaseRows sid idx cs).map (fun r => r.id) = cs.map (fun c => c.id)
  | _, [] => rfl
  | idx, c :: cs => by
    simp only [encodedCaseRows, List.map_cons, encodedCaseRows_map_id sid (idx + 1) cs]
    rfl

theorem mem_encodedCaseRows_suite_id (sid : String) :
    ∀ (idx : Nat) (cs : List TestCase) (r : CaseRow),
      r ∈ encodedCaseRows sid idx cs → r.test_suite_id = sid
  | _, [], _, h => by simp [encodedCaseRows] at h
  | idx, c :: cs, r, h => by
    simp only [encodedCaseRows, List.mem_cons] at h
    rcases h with h | h
    · subst h; rfl
    · exact mem_encodedCaseRows_suite_id sid (idx + 1) cs r h

theorem mem_encodedCaseRows_sort_lb (sid : String) :
    ∀ (idx : Nat) (cs : List TestCase) (r : CaseRow),
      r ∈ encodedCaseRows sid idx cs → (idx : Int) ≤ r.sort_order
  | _, [], _, h => by simp [encodedCaseRows] at h
  | idx, c :: cs, r, h => by
    simp only [encodedCaseRows, List.mem_cons] at h
    rcases h with h | h
    · subst h; exact le_refl _
    · calc (idx : Int) ≤ ((idx + 1 : Nat) : Int) := by exact_mod_cast Nat.le_succ idx
        _ ≤ r.sort_order := mem_encodedCaseRows_sort_lb sid (idx + 1) cs r h

theorem encodedCaseRows_sorted (sid : String) :
    ∀ (idx : Nat) (cs : List TestCase),
      List.Sorted (fun a b => a.sort_order ≤ b.sort_order) (encodedCaseRows sid idx cs)
  | _, [] => List.sorted_nil
  | idx, c :: cs => by
    refine List.sorted_cons.mpr ⟨fun r hr => ?_, encodedCaseRows_sorted sid (idx + 1) cs⟩
    have h1 : ((idx + 1 : Nat) : Int) ≤ r.sort_order :=
      mem_encodedCaseRows_sort_lb sid (idx + 1) cs r hr
    have h0 : (encodeCaseRow sid idx c).sort_order = (idx : Int) := rfl
    rw [h0]
    calc (idx : Int) ≤ ((idx + 1 : Nat) : Int) := by exact_mod_cast Nat.le_succ idx
      _ ≤ r.sort_order := h1

theorem map_decode_encodedCaseRows (sid : String) :
    ∀ (idx : Nat) (cs : List TestCase),
      (encodedCaseRows sid idx cs).map decodeCaseRow = cs
  | _, [] => rfl
  | idx, c :: cs => by
    simp only [encodedCaseRows, List.map_cons, decodeCaseRow_encodeCaseRow,
      map_decode_encodedCaseRows sid (idx + 1) cs]

-- ============================================================================
-- Characterizations of the insert loops
-- ============================================================================

/-- Whatever happened inside, a *successful* case-insert loop appended
exactly the encoded rows and touched nothing else. -/
theorem insertCaseList_ok_inv (sid : String) :
    ∀ (idx : Nat) (cs : List TestCase) (st st' : DbState),
      insertCaseList sid idx cs st = .ok st' →
      st' = { st with test_cases := st.test_cases ++ encodedCaseRows sid idx cs }
  | _, [], st, st', h => by
    simp only [insertCaseList, Except.ok.injEq] at h
    simp [← h, encodedCaseRows]
  | idx, c :: cs, st, st', h => by
    by_cases h1 : ∃ c0 ∈ st.test_cases, c0.id = (encodeCaseRow sid idx c).id
    · rw [show insertCaseList sid idx (c :: cs) st =
          .error ("UNIQUE constraint failed: test_cases.id", st) from by
        simp [insertCaseList, execInsertTestCase, if_pos h1]] at h
      exact absurd h (by simp)
    · by_cases h2 : ∃ t ∈ st.test_suites, t.id = (encodeCaseRow sid idx c).test_suite_id
      · rw [show insertCaseList sid idx (c :: cs) st =
            insertCaseList sid (idx + 1) cs
              { st with test_cases := st.test_cases ++ [encodeCaseRow sid idx c] } from by
          simp [insertCaseList, execInsertTestCase, if_neg h1, if_pos h2]] at h
        have ih := insertCaseList_ok_inv sid (idx + 1) cs _ st' h
        rw [ih]
        simp [encodedCaseRows, List.append_assoc]
      · rw [show insertCaseList sid idx (c :: cs) st =
            .error ("FOREIGN KEY constraint failed", st) from by
          simp [insertCaseList, execInsertTestCase, if_neg h1, if_neg h2]] at h
        exact absurd h (by simp)

/-- The case-insert loop succeeds when the supplied ids are fresh and
mutually distinct and the parent suite row exists. -/
theorem insertCaseList_ok (sid : String) :
    ∀ (idx : Nat) (cs : List TestCase) (st : DbState),
      (∀ c ∈ cs, ∀ row ∈ st.test_cases, row.id ≠ c.id) →
      (cs.map (fun c => c.id)).Nodup →
      (∃ t ∈ st.test_suites, t.id = sid) →
      insertCaseList sid idx cs st =
        .ok { st with test_cases := st.test_cases ++ encodedCaseRows sid idx cs }
  | _, [], st, _, _, _ => by simp [insertCaseList, encodedCaseRows]
  | idx, c :: cs, st, hfresh, hnodup, hsuite => by
    have hnoconf : ¬ ∃ c0 ∈ st.test_cases, c0.id = (encodeCaseRow sid idx c).id := by
      rintro ⟨c0, hc0, hid⟩
      exact hfresh c (List.mem_cons_self c cs) c0 hc0 hid
    have hsuite' : ∃ t ∈ st.test_suites, t.id = (encodeCaseRow sid idx c).test_suite_id := hsuite
    rw [show insertCaseList sid idx (c :: cs) st =
        insertCaseList sid (idx + 1) cs
          { st with test_cases := st.test_cases ++ [encodeCaseRow sid idx c] } from by
      simp [insertCaseList, execInsertTestCase, if_neg hnoconf, if_pos hsuite']]
    have hnodup' : (cs.map (fun c => c.id)).Nodup := (List.nodup_cons.mp hnodup).2
    have hhead : c.id ∉ cs.map (fun c => c.id) := by
      simpa using (List.nodup_cons.mp hnodup).1
    have hfresh' : ∀ c' ∈ cs,
        ∀ row ∈ ({ st with test_cases := st.test_cases ++ [encodeCaseRow sid idx c] } :
          DbState).test_cases, row.id ≠ c'.id := by
      intro c' hc' row hrow
      simp only [List.mem_append, List.mem_singleton] at hrow
      rcases hrow with hrow | hrow
      · exact hfresh c' (List.mem_cons_of_mem c hc') row hrow
      · subst hrow
        intro hcontra
        exact hhead (by
          have hcc : c.id = c'.id := hcontra
          rw [hcc]
          exact List.mem_map_of_mem (fun c => c.id) hc')
    rw [insertCaseList_ok sid (idx + 1) cs
      { st with test_cases := st.test_cases ++ [encodeCaseRow sid idx c] }
      hfresh' hnodup' hsuite]
    simp [encodedCaseRows, List.append_assoc]

/-- A successful result-insert loop appended exactly the encoded rows. -/
theorem insertResultList_ok_inv (rid : String) :
    ∀ (rs : List TestCaseResult) (st st' : DbState),
      insertResultList rid rs st = .ok st' →
      st' = { st with test_case_results :=
        st.test_case_results ++ rs.map (encodeResultRow rid) }
  | [], st, st', h => by
    simp only [insertResultList, Except.ok.injEq] at h
    simp [← h]
  | res :: rs, st, st', h => by
    by_cases h1 : ∃ r ∈ st.runs, r.id = (encodeResultRow rid res).run_id
    · rw [show insertResultList rid (res :: rs) st =
          insertResultList rid rs
            { st with test_case_results :=
              st.test_case_results ++ [encodeResultRow rid res] } from by
        simp [insertResultList, execInsertResult, if_pos h1]] at h
      have ih := insertResultList_ok_inv rid rs _ st' h
      rw [ih]
      simp [List.append_assoc]
    · rw [show insertResultList rid (res :: rs) st =
          .error ("FOREIGN KEY constraint failed", st) from by
        simp [insertResultList, execInsertResult, if_neg h1]] at h
      exact absurd h (by simp)

/-- The result-insert loop always succeeds when the parent run row
exists (the surrogate key cannot collide). -/
theorem insertResultList_ok (rid : String) :
    ∀ (rs : List TestCaseResult) (st : DbState),
      (∃ r ∈ st.runs, r.id = rid) →
      insertResultList rid rs st =
        .ok { st with test_case_results :=
          st.test_case_results ++ rs.map (encodeResultRow rid) }
  | [], st, _ => by simp [insertResultList]
  | res :: rs, st, hrun => by
    have hfk : ∃ r ∈ st.runs, r.id = (encodeResultRow rid res).run_id := hrun
    rw [show insertResultList rid (res :: rs) st =
        insertResultList rid rs
          { st with test_case_results :=
            st.test_case_results ++ [encodeResultRow rid res] } from by
      simp [insertResultList, execInsertResult, if_pos hfk]]
    rw [insertResultList_ok rid rs
      { st with test_case_results := st.test_case_results ++ [encodeResultRow rid res] } hrun]
    simp [List.append_assoc]

-- ============================================================================
-- Upsert and save characterizations
-- ============================================================================

/-- After either arm of the run upsert, a row with the saved id exists. -/
theorem upsertRunRow_mem_id (rows : List RunRow) (run : RunResult) :
    ∃ r ∈ upsertRunRow rows run, r.id = run.id := by
  unfold upsertRunRow
  split
  · rename_i hex
    obtain ⟨r0, hr0, hid⟩ := hex
    refine ⟨{ r0 with status := run.status, completed_at := run.completed_at }, ?_, hid⟩
    have : (fun r => if r.id = run.id then
        { r with status := run.status, completed_at := run.completed_at } else r) r0 =
        { r0 with status := run.status, completed_at := run.completed_at } := by
      simp [hid]
    exact this ▸ List.mem_map_of_mem _ hr0
  · exact ⟨mkRunRow run, by simp, rfl⟩

/-- After either arm of the suite upsert, a row with the saved id exists. -/
theorem upsertSuiteRow_mem_id (rows : List SuiteRow) (suite : TestSuite) :
    ∃ r ∈ upsertSuiteRow rows suite, r.id = suite.id := by
  unfold upsertSuiteRow
  split
  · rename_i hex
    obtain ⟨r0, hr0, hid⟩ := hex
    refine ⟨{ r0 with
      name := suite.name
      description := suite.description
      system_prompt := suite.system_prompt
      judge_system_prompt := suite.judge_system_prompt
      updated_at := suite.updated_at }, ?_, hid⟩
    have : (fun r => if r.id = suite.id then
        { r with
          name := suite.name
          description := suite.description
          system_prompt := suite.system_prompt
          judge_system_prompt := suite.judge_system_prompt
          updated_at := suite.updated_at } else r) r0 =
        { r0 with
          name := suite.name
          description := suite.description
          system_prompt := suite.system_prompt
          judge_system_prompt := suite.judge_system_prompt
          updated_at := suite.updated_at } := by
      simp [hid]
    exact this ▸ List.mem_map_of_mem _ hr0
  · exact ⟨mkSuiteRow suite, by simp, rfl⟩

/-- `save_run` never fails and replaces exactly the run upsert and the
run's result rows. -/
theorem save_run_eq (s : DbState) (run : RunResult) :
    save_run s run = .ok
      { s with
        runs := upsertRunRow s.runs run
        test_case_results :=
          (s.test_case_results.filter (fun r => r.run_id ≠ run.id)) ++
            run.results.map (encodeResultRow run.id) } := by
  unfold save_run
  exact insertResultList_ok run.id run.results _ (upsertRunRow_mem_id s.runs run)

/-- A successful `save_test_suite` is exactly: suite upsert, delete the
suite's case rows, append the encoded supplied cases. -/
theorem save_test_suite_ok_inv (s : DbState) (suite : TestSuite) (s' : DbState)
    (h : save_test_suite s suite = .ok s') :
    s' = { s with
      test_suites := upsertSuiteRow s.test_suites suite
      test_cases :=
        (s.test_cases.filter (fun c => c.test_suite_id ≠ suite.id)) ++
          encodedCaseRows suite.id 0 suite.test_cases } := by
  unfold save_test_suite at h
  exact insertCaseList_ok_inv suite.id 0 suite.test_cases _ s' h

-- ============================================================================
-- Example states
-- ============================================================================

/-- A freshly migrated, empty store. -/
def emptyDbState : DbState :=
  { schema_version := some 2
    test_suites := []
    test_cases := []
    runs := []
    test_case_results := []
    app_state := some (none, none)
    legacy := none }

/-- A test case used in concrete scenarios. -/
def caseC1 : TestCase :=
  { id := "c1"
    prompt := "p1"
    expected_output := none
    scoring_method := "exact"
    weight := 1
    metadata := { category := none, difficulty := none, tags := [] } }

/-- A second test case. -/
def caseC2 : TestCase :=
  { id := "c2"
    prompt := "p2"
    expected_output := some "out"
    scoring_method := "exact"
    weight := 1
    metadata := { category := none, difficulty := none, tags := ["t"] } }

/-- A suite whose case list repeats the same case id: each case row is
inserted with a plain `INSERT` into a table with `id TEXT PRIMARY KEY`,
so the second insert fails at the SQLite level. -/
def dupCaseSuite : TestSuite :=
  { id := "s1"
    name := "suite one"
    description := none
    system_prompt := "sys"
    judge_system_prompt := none
    test_cases := [caseC1, caseC1]
    created_at := 1
    updated_at := 2 }

-- ============================================================================
-- Claims
-- ============================================================================

/-- Claim C1: the spec demands that every multi-statement mutating
operation run inside one atomic transaction that rolls back entirely if
any constituent statement fails. The code opens no transaction at all:
evaluating `save_test_suite` on an empty store with a suite whose case
list repeats an id, the second case `INSERT` fails on the `test_cases`
primary key, yet the already-executed suite upsert and first case insert
remain — the operation errors while leaving a partially completed state,
contradicting the claimed rollback. -/
theorem save_test_suite_not_atomic :
    save_test_suite emptyDbState dupCaseSuite =
      .error ("UNIQUE constraint failed: test_cases.id",
        { emptyDbState with
          test_suites := [mkSuiteRow dupCaseSuite]
          test_cases := [encodeCaseRow "s1" 0 caseC1] }) ∧
    { emptyDbState with
      test_suites := [mkSuiteRow dupCaseSuite]
      test_cases := [encodeCaseRow "s1" 0 caseC1] } ≠ emptyDbState := by
  constructor
  · decide
  · decide

/-- Claim C5: deleting a suite removes the suite row and (via the
`ON DELETE CASCADE` foreign key, enabled per-connection by
`PRAGMA foreign_keys = ON`) every case row referencing it; deleting a run
removes the run row and every result row referencing it. No child row
referencing the deleted id remains. -/
theorem delete_cascade_no_orphans (s : DbState) (sid rid : String)
    (hs : ∃ r ∈ s.test_suites, r.id = sid)
    (hr : ∃ r ∈ s.runs, r.id = rid) :
    (delete_test_suite s sid).test_suites = s.test_suites.filter (fun r => r.id ≠ sid) ∧
    (delete_test_suite s sid).test_cases =
      s.test_cases.filter (fun c => c.test_suite_id ≠ sid) ∧
    (∀ c ∈ (delete_test_suite s sid).test_cases, c.test_suite_id ≠ sid) ∧
    (delete_run s rid).runs = s.runs.filter (fun r => r.id ≠ rid) ∧
    (delete_run s rid).test_case_results =
      s.test_case_results.filter (fun c => c.run_id ≠ rid) ∧
    (∀ c ∈ (delete_run s rid).test_case_results, c.run_id ≠ rid) := by
  have hsuiteIds : ∀ x, x ∈ ((s.test_suites.filter (fun r => r.id = sid)).map
      (fun r => r.id)) ↔ x = sid := by
    intro x
    constructor
    · intro hx
      obtain ⟨r0, hr0, hid⟩ := List.mem_map.mp hx
      have := (List.mem_filter.mp hr0).2
      simp only [decide_eq_true_eq] at this
      rw [← hid, this]
    · rintro rfl
      obtain ⟨r0, hr0, hid⟩ := hs
      exact List.mem_map.mpr ⟨r0, List.mem_filter.mpr ⟨hr0, by simp [hid]⟩, hid⟩
  have hrunIds : ∀ x, x ∈ ((s.runs.filter (fun r => r.id = rid)).map
      (fun r => r.id)) ↔ x = rid := by
    intro x
    constructor
    · intro hx
      obtain ⟨r0, hr0, hid⟩ := List.mem_map.mp hx
      have := (List.mem_filter.mp hr0).2
      simp only [decide_eq_true_eq] at this
      rw [← hid, this]
    · rintro rfl
      obtain ⟨r0, hr0, hid⟩ := hr
      exact List.mem_map.mpr ⟨r0, List.mem_filter.mpr ⟨hr0, by simp [hid]⟩, hid⟩
  have h1 : (delete_test_suite s sid).test_cases =
      s.test_cases.filter (fun c => c.test_suite_id ≠ sid) := by
    unfold delete_test_suite cascadeDeleteSuites
    refine List.filter_congr ?_
    intro c _
    exact decide_eq_decide.mpr (by rw [hsuiteIds c.test_suite_id])
  have h2 : (delete_run s rid).test_case_results =
      s.test_case_results.filter (fun c => c.run_id ≠ rid) := by
    unfold delete_run cascadeDeleteRuns
    refine List.filter_congr ?_
    intro c _
    exact decide_eq_decide.mpr (by rw [hrunIds c.run_id])
  refine ⟨rfl, h1, ?_, rfl, h2, ?_⟩
  · intro c hc
    rw [h1] at hc
    have := (List.mem_filter.mp hc).2
    simpa using this
  · intro c hc
    rw [h2] at hc
    have := (List.mem_filter.mp hc).2
    simpa using this

/-- A stored run row used in concrete scenarios. -/
def runRowR1 : RunRow :=
  { id := "r1"
    test_suite_id := "s1"
    test_suite_name := "suite one"
    models := some ["m"]
    parameters := some defaultParameters
    status := "completed"
    started_at := 5
    completed_at := some 6
    judge_model := none }

/-- A stored result row referencing `runRowR1`. -/
def resultRowR1 : ResultRow :=
  { run_id := "r1"
    test_case_id := "c1"
    model_id := "m"
    response := ""
    token_count := none
    latency_ms := none
    status := "completed"
    error := none
    score := none
    streamed_content := none }

/-- A populated store: one suite with one case, one run with one result. -/
def populatedDbState : DbState :=
  { emptyDbState with
    test_suites := [mkSuiteRow dupCaseSuite]
    test_cases := [encodeCaseRow "s1" 0 caseC1]
    runs := [runRowR1]
    test_case_results := [resultRowR1] }

/-- Witness for C5 on a store holding one suite with one case and one run
with one result. -/
theorem delete_cascade_no_orphans_witness :
    (∃ r ∈ populatedDbState.test_suites, r.id = "s1") ∧
    (∃ r ∈ populatedDbState.runs, r.id = "r1") ∧
    (delete_test_suite populatedDbState "s1").test_cases = [] ∧
    (delete_run populatedDbState "r1").test_case_results = [] := by
  have hs : ∃ r ∈ populatedDbState.test_suites, r.id = "s1" :=
    ⟨mkSuiteRow dupCaseSuite, by simp [populatedDbState], by decide⟩
  have hr : ∃ r ∈ populatedDbState.runs, r.id = "r1" :=
    ⟨runRowR1, by simp [populatedDbState], by decide⟩
  have h := delete_cascade_no_orphans populatedDbState "s1" "r1" hs hr
  exact ⟨hs, hr, h.2.1.trans (by decide), h.2.2.2.2.1.trans (by decide)⟩

/-- A stored run row whose `parameters` text does not parse. -/
def badParamsRunRow : RunRow :=
  { id := "r9"
    test_suite_id := "s"
    test_suite_name := "n"
    models := some []
    parameters := none
    status := "running"
    started_at := 0
    completed_at := none
    judge_model := none }

/-- A store containing only `badParamsRunRow`. -/
def badParamsDbState : DbState :=
  { emptyDbState with runs := [badParamsRunRow] }

/-- Claim C9: a stored run whose `parameters` column fails to decode is
listed with the documented default parameter set (temperature 0.7,
top_p 1.0, max_tokens 1024, zero penalties); the listing itself still
returns one entry per stored run. -/
theorem get_all_runs_decode_fallback (s : DbState) (r : RunRow) (hr : r ∈ s.runs) :
    (get_all_runs_internal s).length = s.runs.length ∧
    decodeRunRow r (get_results_for_run s r.id) ∈ get_all_runs_internal s ∧
    (r.parameters = none →
      (decodeRunRow r (get_results_for_run s r.id)).parameters = defaultParameters) ∧
    defaultParameters =
      { temperature := 7/10
        top_p := 1
        max_tokens := 1024
        frequency_penalty := 0
        presence_penalty := 0 } := by
  refine ⟨?_, ?_, ?_, rfl⟩
  · unfold get_all_runs_internal
    rw [List.length_map]
    exact (List.perm_insertionSort _ s.runs).length_eq
  · unfold get_all_runs_internal
    exact List.mem_map_of_mem _ ((List.perm_insertionSort _ s.runs).mem_iff.mpr hr)
  · intro h
    simp [decodeRunRow, h]

/-- Witness for C9: the store with the unparseable-parameters run lists
exactly one run carrying the default parameters. -/
theorem get_all_runs_decode_fallback_witness :
    badParamsRunRow ∈ badParamsDbState.runs ∧
    (get_all_runs_internal badParamsDbState).length = 1 ∧
    (decodeRunRow badParamsRunRow
      (get_results_for_run badParamsDbState "r9")).parameters = defaultParameters := by
  have h := get_all_runs_decode_fallback badParamsDbState badParamsRunRow
    (by simp [badParamsDbState, badParamsRunRow, emptyDbState])
  refine ⟨by simp [badParamsDbState, badParamsRunRow, emptyDbState], h.1.trans (by decide), ?_⟩
  have := h.2.2.1 (by decide)
  simpa [badParamsRunRow] using this

/-- Reading the results of run `rid` after its block was re-inserted at
the end of the table yields exactly the supplied list, provided every
earlier row belongs to other runs. -/
theorem get_results_decode_block (tc : List ResultRow) (rid : String)
    (rs : List TestCaseResult) (hpre : ∀ r ∈ tc, r.run_id ≠ rid) :
    ((tc ++ rs.map (encodeResultRow rid)).filter
      (fun r => r.run_id = rid)).map decodeResultRow = rs := by
  rw [List.filter_append]
  have h1 : tc.filter (fun r => r.run_id = rid) = [] := by
    rw [List.filter_eq_nil_iff]
    intro a ha
    simpa using hpre a ha
  have h2 : (rs.map (encodeResultRow rid)).filter (fun r => r.run_id = rid) =
      rs.map (encodeResultRow rid) := by
    rw [List.filter_eq_self]
    intro a ha
    obtain ⟨res, hres, hrfl⟩ := List.mem_map.mp ha
    subst hrfl
    simp [encodeResultRow]
  rw [h1, h2, List.nil_append, List.map_map]
  have hcomp : (decodeResultRow ∘ encodeResultRow rid) = fun res => res := by
    funext res
    exact decodeResultRow_encodeResultRow rid res
  rw [hcomp]
  exact List.map_id rs

/-- Claim C4: saving a run whose id already exists refreshes only the
`status` and `completed_at` columns of the run row (the conflict clause
lists exactly those two); `test_suite_id`, `test_suite_name`, `models`,
`parameters`, `started_at` and `judge_model` keep their stored values
even when the caller resupplies different ones, while the run's result
rows are deleted and fully re-inserted from the call. -/
theorem save_run_conflict_updates_only_status (s : DbState) (run : RunResult)
    (r0 : RunRow) (h0 : r0 ∈ s.runs) (hid : r0.id = run.id)
    (hnodup : (s.runs.map (fun r => r.id)).Nodup) :
    ∃ s', save_run s run = .ok s' ∧
      s'.runs = s.runs.map (fun r =>
        if r.id = run.id then
          { r with status := run.status, completed_at := run.completed_at }
        else r) ∧
      get_results_for_run s' run.id = run.results ∧
      ∀ r1 ∈ s'.runs, r1.id = run.id →
        r1.test_suite_id = r0.test_suite_id ∧ r1.test_suite_name = r0.test_suite_name ∧
        r1.models = r0.models ∧ r1.parameters = r0.parameters ∧
        r1.started_at = r0.started_at ∧ r1.judge_model = r0.judge_model := by
  have hup : upsertRunRow s.runs run = s.runs.map (fun r =>
      if r.id = run.id then
        { r with status := run.status, completed_at := run.completed_at }
      else r) := by
    unfold upsertRunRow
    rw [if_pos ⟨r0, h0, hid⟩]
  refine ⟨_, save_run_eq s run, by rw [hup], ?_, ?_⟩
  · show ((((s.test_case_results.filter (fun r => r.run_id ≠ run.id)) ++
      run.results.map (encodeResultRow run.id)).filter
        (fun r => r.run_id = run.id)).map decodeResultRow) = run.results
    refine get_results_decode_block _ run.id run.results ?_
    intro r hrr
    have := (List.mem_filter.mp hrr).2
    simpa using this
  · intro r1 hr1 hid1
    rw [hup] at hr1
    obtain ⟨r, hr, hfr⟩ := List.mem_map.mp hr1
    by_cases hcase : r.id = run.id
    · have hreq : r = r0 := by
        refine List.inj_on_of_nodup_map hnodup hr h0 ?_
        show r.id = r0.id
        rw [hcase, hid]
      rw [if_pos hcase] at hfr
      subst hreq
      rw [← hfr]
      exact ⟨rfl, rfl, rfl, rfl, rfl, rfl⟩
    · rw [if_neg hcase] at hfr
      rw [← hfr] at hid1
      exact absurd hid1 hcase

/-- A run row stored as still running (the first save of the spec
example). -/
def runRowRunning : RunRow :=
  { id := "r1"
    test_suite_id := "s1"
    test_suite_name := "suite one"
    models := some ["m"]
    parameters := some defaultParameters
    status := "running"
    started_at := 5
    completed_at := none
    judge_model := none }

/-- The store after the first save of the spec example. -/
def runningDbState : DbState :=
  { emptyDbState with runs := [runRowRunning] }

/-- The second save of the spec example: same id, everything else
resupplied differently. -/
def resuppliedRun : RunResult :=
  { id := "r1"
    test_suite_id := "OTHER"
    test_suite_name := "OTHER NAME"
    models := ["x", "y"]
    parameters :=
      { temperature := 0
        top_p := 0
        max_tokens := 1
        frequency_penalty := 1
        presence_penalty := 1 }
    results := [{ test_case_id := "c1"
                  model_id := "x"
                  response := "resp"
                  token_count := some 3
                  latency_ms := none
                  status := "completed"
                  error := none
                  score := none
                  streamed_content := none }]
    status := "completed"
    started_at := 999
    completed_at := some 7
    judge_model := some "judge" }

/-- Witness for C4: re-saving run r1 updates only status/completed_at on
the stored row and replaces its result list. -/
theorem save_run_conflict_updates_only_status_witness :
    ∃ s', save_run runningDbState resuppliedRun = .ok s' ∧
      s'.runs = [{ runRowRunning with status := "completed", completed_at := some 7 }] ∧
      get_results_for_run s' "r1" = resuppliedRun.results := by
  obtain ⟨s', hok, hruns, hres, _⟩ :=
    save_run_conflict_updates_only_status runningDbState resuppliedRun runRowRunning
      (by simp [runningDbState]) (by decide) (by decide)
  refine ⟨s', hok, ?_, hres⟩
  rw [hruns]
  rfl

-- ============================================================================
-- Loop preservation lemmas and write_snapshot inversion
-- ============================================================================

theorem save_test_suite_preserves (s s' : DbState) (suite : TestSuite)
    (h : save_test_suite s suite = .ok s') :
    s'.runs = s.runs ∧ s'.test_case_results = s.test_case_results ∧
    s'.app_state = s.app_state ∧ s'.schema_version = s.schema_version ∧
    s'.legacy = s.legacy := by
  rw [save_test_suite_ok_inv s suite s' h]
  exact ⟨rfl, rfl, rfl, rfl, rfl⟩

theorem writeSuitesLoop_preserves :
    ∀ (L : List TestSuite) (s s' : DbState),
      writeSuitesLoop L s = .ok s' →
      s'.runs = s.runs ∧ s'.test_case_results = s.test_case_results ∧
      s'.app_state = s.app_state ∧ s'.schema_version = s.schema_version ∧
      s'.legacy = s.legacy
  | [], s, s', h => by
    simp only [writeSuitesLoop, Except.ok.injEq] at h
    subst h
    exact ⟨rfl, rfl, rfl, rfl, rfl⟩
  | suite :: rest, s, s', h => by
    cases hsave : save_test_suite s suite with
    | error e =>
      rw [show writeSuitesLoop (suite :: rest) s = .error e from by
        simp only [writeSuitesLoop]; rw [hsave]] at h
      exact absurd h (by simp)
    | ok s1 =>
      rw [show writeSuitesLoop (suite :: rest) s = writeSuitesLoop rest s1 from by
        simp only [writeSuitesLoop]; rw [hsave]] at h
      obtain ⟨a, b, c, d, e⟩ := writeSuitesLoop_preserves rest s1 s' h
      obtain ⟨a', b', c', d', e'⟩ := save_test_suite_preserves s s1 suite hsave
      exact ⟨a.trans a', b.trans b', c.trans c', d.trans d', e.trans e'⟩

theorem writeRunsLoop_cons (run : RunResult) (rest : List RunResult) (s : DbState) :
    writeRunsLoop (run :: rest) s = writeRunsLoop rest
      { s with
        runs := upsertRunRow s.runs run
        test_case_results :=
          (s.test_case_results.filter (fun r => r.run_id ≠ run.id)) ++
            run.results.map (encodeResultRow run.id) } := by
  simp only [writeRunsLoop]
  rw [save_run_eq]

theorem writeRunsLoop_preserves :
    ∀ (L : List RunResult) (s s' : DbState),
      writeRunsLoop L s = .ok s' →
      s'.test_suites = s.test_suites ∧ s'.test_cases = s.test_cases ∧
      s'.app_state = s.app_state ∧ s'.schema_version = s.schema_version ∧
      s'.legacy = s.legacy
  | [], s, s', h => by
    simp only [writeRunsLoop, Except.ok.injEq] at h
    subst h
    exact ⟨rfl, rfl, rfl, rfl, rfl⟩
  | run :: rest, s, s', h => by
    rw [writeRunsLoop_cons] at h
    exact writeRunsLoop_preserves rest
      { s with
        runs := upsertRunRow s.runs run
        test_case_results :=
          (s.test_case_results.filter (fun r => r.run_id ≠ run.id)) ++
            run.results.map (encodeResultRow run.id) } s' h

/-- A successful `write_snapshot` decomposes into: suites loop, delete of
suites not supplied, runs loop, delete of runs not supplied, app-state
overwrite. -/
theorem write_snapshot_ok_inv (s : DbState) (doc : BenchmakerDb) (s' : DbState)
    (h : write_snapshot s doc = .ok s') :
    ∃ s1 s3, writeSuitesLoop doc.test_suites s = .ok s1 ∧
      writeRunsLoop doc.runs
        (cascadeDeleteSuites s1
          (fun r => r.id ∉ doc.test_suites.map (fun t => t.id))) = .ok s3 ∧
      s' = updateAppStateRow
        (cascadeDeleteRuns s3 (fun r => r.id ∉ doc.runs.map (fun t => t.id)))
        doc.active_test_suite_id doc.current_run_id := by
  cases h1 : writeSuitesLoop doc.test_suites s with
  | error e =>
    rw [show write_snapshot s doc = .error e from by
      unfold write_snapshot; rw [h1]] at h
    exact absurd h (by simp)
  | ok s1 =>
    cases h2 : writeRunsLoop doc.runs
        (cascadeDeleteSuites s1
          (fun r => r.id ∉ doc.test_suites.map (fun t => t.id))) with
    | error e =>
      rw [show write_snapshot s doc = .error e from by
        unfold write_snapshot
        rw [h1]
        show (match writeRunsLoop doc.runs
            (cascadeDeleteSuites s1
              (fun r => r.id ∉ doc.test_suites.map (fun t : TestSuite => t.id))) with
          | .error e => (.error e : DbResult)
          | .ok s3 => .ok (updateAppStateRow
              (cascadeDeleteRuns s3
                (fun r => r.id ∉ doc.runs.map (fun t : RunResult => t.id)))
              doc.active_test_suite_id doc.current_run_id)) = .error e
        rw [h2]] at h
      exact absurd h (by simp)
    | ok s3 =>
      rw [show write_snapshot s doc = .ok (updateAppStateRow
          (cascadeDeleteRuns s3 (fun r => r.id ∉ doc.runs.map (fun t => t.id)))
          doc.active_test_suite_id doc.current_run_id) from by
        unfold write_snapshot
        rw [h1]
        show (match writeRunsLoop doc.runs
            (cascadeDeleteSuites s1
              (fun r => r.id ∉ doc.test_suites.map (fun t : TestSuite => t.id))) with
          | .error e => (.error e : DbResult)
          | .ok s3 => .ok (updateAppStateRow
              (cascadeDeleteRuns s3
                (fun r => r.id ∉ doc.runs.map (fun t : RunResult => t.id)))
              doc.active_test_suite_id doc.current_run_id)) = _
        rw [h2]] at h
      simp only [Except.ok.injEq] at h
      exact ⟨s1, s3, rfl, h2, h.symm⟩

-- ============================================================================
-- created_at immutability (C10) and delete-not-present (C3)
-- ============================================================================

theorem upsertSuiteRow_keeps_created (rows : List SuiteRow) (suite : TestSuite)
    (i : String) (v : Int) (h : ∃ r ∈ rows, r.id = i ∧ r.created_at = v) :
    ∃ r ∈ upsertSuiteRow rows suite, r.id = i ∧ r.created_at = v := by
  obtain ⟨r, hr, hi, hv⟩ := h
  unfold upsertSuiteRow
  split
  · refine ⟨_, List.mem_map_of_mem _ hr, ?_⟩
    by_cases hc : r.id = suite.id
    · simp only [if_pos hc]
      exact ⟨hi, hv⟩
    · simp only [if_neg hc]
      exact ⟨hi, hv⟩
  · exact ⟨r, List.mem_append_left _ hr, hi, hv⟩

theorem save_test_suite_keeps_created (s s' : DbState) (suite : TestSuite)
    (i : String) (v : Int) (hok : save_test_suite s suite = .ok s')
    (h : ∃ r ∈ s.test_suites, r.id = i ∧ r.created_at = v) :
    ∃ r ∈ s'.test_suites, r.id = i ∧ r.created_at = v := by
  rw [save_test_suite_ok_inv s suite s' hok]
  exact upsertSuiteRow_keeps_created s.test_suites suite i v h

theorem writeSuitesLoop_keeps_created :
    ∀ (L : List TestSuite) (s s' : DbState) (i : String) (v : Int),
      writeSuitesLoop L s = .ok s' →
      (∃ r ∈ s.test_suites, r.id = i ∧ r.created_at = v) →
      ∃ r ∈ s'.test_suites, r.id = i ∧ r.created_at = v
  | [], s, s', i, v, h, hp => by
    simp only [writeSuitesLoop, Except.ok.injEq] at h
    subst h
    exact hp
  | suite :: rest, s, s', i, v, h, hp => by
    cases hsave : save_test_suite s suite with
    | error e =>
      rw [show writeSuitesLoop (suite :: rest) s = .error e from by
        simp only [writeSuitesLoop]; rw [hsave]] at h
      exact absurd h (by simp)
    | ok s1 =>
      rw [show writeSuitesLoop (suite :: rest) s = writeSuitesLoop rest s1 from by
        simp only [writeSuitesLoop]; rw [hsave]] at h
      exact writeSuitesLoop_keeps_created rest s1 s' i v h
        (save_test_suite_keeps_created s s1 suite i v hsave hp)

/-- Claim C10: re-saving an existing suite id — through `save_test_suite`
or through `write_snapshot`'s suite upsert — leaves the stored
`created_at` unchanged even when the caller supplies a different value:
the conflict clause updates name, description, system_prompt,
judge_system_prompt and updated_at, never created_at. -/
theorem created_at_immutable (s : DbState) (suite : TestSuite) (doc : BenchmakerDb)
    (r0 : SuiteRow) (h0 : r0 ∈ s.test_suites) (hid : r0.id = suite.id) :
    (∀ s₁, save_test_suite s suite = .ok s₁ →
      ∃ r1 ∈ s₁.test_suites, r1.id = suite.id ∧ r1.created_at = r0.created_at) ∧
    (suite ∈ doc.test_suites →
      ∀ s₂, write_snapshot s doc = .ok s₂ →
        ∃ r1 ∈ s₂.test_suites, r1.id = suite.id ∧ r1.created_at = r0.created_at) := by
  constructor
  · intro s₁ hok
    rw [save_test_suite_ok_inv s suite s₁ hok]
    exact upsertSuiteRow_keeps_created s.test_suites suite suite.id r0.created_at
      ⟨r0, h0, hid, rfl⟩
  · intro hdoc s₂ hok
    obtain ⟨s1, s3, hl1, hl2, hs2⟩ := write_snapshot_ok_inv s doc s₂ hok
    obtain ⟨r1, hr1, hi1, hv1⟩ :=
      writeSuitesLoop_keeps_created doc.test_suites s s1 suite.id r0.created_at hl1
        ⟨r0, h0, hid, rfl⟩
    have hkeep : r1 ∈ (cascadeDeleteSuites s1
        (fun r => r.id ∉ doc.test_suites.map (fun t => t.id))).test_suites := by
      unfold cascadeDeleteSuites
      refine List.mem_filter.mpr ⟨hr1, ?_⟩
      have hmem : r1.id ∈ doc.test_suites.map (fun t => t.id) := by
        rw [hi1]
        exact List.mem_map_of_mem _ hdoc
      simpa using hmem
    have hpres := writeRunsLoop_preserves doc.runs _ s3 hl2
    refine ⟨r1, ?_, hi1, hv1⟩
    rw [hs2]
    show r1 ∈ (updateAppStateRow _ _ _).test_suites
    simpa [updateAppStateRow, cascadeDeleteRuns, hpres.1] using hkeep

/-- The store before the C10 witness: one suite row with created_at 1. -/
theorem created_at_immutable_witness :
    ∃ s₁, save_test_suite populatedDbState
        { dupCaseSuite with test_cases := [caseC2], created_at := 999 } = .ok s₁ ∧
      ∃ r1 ∈ s₁.test_suites, r1.id = "s1" ∧ r1.created_at = 1 := by
  have h := created_at_immutable populatedDbState
    { dupCaseSuite with test_cases := [caseC2], created_at := 999 }
    { version := 2
      updated_at := 0
      test_suites := []
      runs := []
      active_test_suite_id := none
      current_run_id := none }
    (mkSuiteRow dupCaseSuite) (by simp [populatedDbState]) (by decide)
  obtain ⟨s₁, hok⟩ : ∃ s₁, save_test_suite populatedDbState
      { dupCaseSuite with test_cases := [caseC2], created_at := 999 } = .ok s₁ := ⟨_, rfl⟩
  obtain ⟨r1, hr1, hi1, hv1⟩ := h.1 s₁ hok
  exact ⟨s₁, hok, r1, hr1, hi1, by rw [hv1]; rfl⟩

/-- The empty aggregate document. -/
def emptyDoc : BenchmakerDb :=
  { version := 2
    updated_at := 0
    test_suites := []
    runs := []
    active_test_suite_id := none
    current_run_id := none }

/-- Claim C3: `write_snapshot` is authoritative full-state replacement:
after a successful write, every remaining suite/run id comes from the
supplied document (so ids absent from the document are gone), and an
empty supplied suite (or run) list deletes all rows of that kind — a
snapshot write with an empty suite list followed by a snapshot read
returns zero suites. -/
theorem write_snapshot_delete_not_present (s s' : DbState) (doc : BenchmakerDb)
    (now : Int) (hok : write_snapshot s doc = .ok s') :
    (∀ r ∈ s'.test_suites, r.id ∈ doc.test_suites.map (fun t => t.id)) ∧
    (∀ r ∈ s'.runs, r.id ∈ doc.runs.map (fun t => t.id)) ∧
    (doc.test_suites = [] →
      (read_snapshot s' now).test_suites = [] ∧ s'.test_suites = []) ∧
    (doc.runs = [] → (read_snapshot s' now).runs = [] ∧ s'.runs = []) := by
  obtain ⟨s1, s3, hl1, hl2, hs'⟩ := write_snapshot_ok_inv s doc s' hok
  have hpres := writeRunsLoop_preserves doc.runs _ s3 hl2
  have hsuites' : s'.test_suites = (cascadeDeleteSuites s1
      (fun r => r.id ∉ doc.test_suites.map (fun t => t.id))).test_suites := by
    rw [hs']
    show (updateAppStateRow _ _ _).test_suites = _
    simpa [updateAppStateRow, cascadeDeleteRuns] using hpres.1
  have hruns' : s'.runs = s3.runs.filter
      (fun r => ¬ r.id ∉ doc.runs.map (fun t => t.id)) := by
    rw [hs']
    rfl
  have hnilS : doc.test_suites = [] → s'.test_suites = [] := by
    intro hempty
    rw [hsuites']
    unfold cascadeDeleteSuites
    simp [hempty]
  have hnilR : doc.runs = [] → s'.runs = [] := by
    intro hempty
    rw [hruns']
    simp [hempty]
  refine ⟨?_, ?_, ?_, ?_⟩
  · intro r hr
    rw [hsuites'] at hr
    unfold cascadeDeleteSuites at hr
    have := (List.mem_filter.mp hr).2
    simpa using this
  · intro r hr
    rw [hruns'] at hr
    have := (List.mem_filter.mp hr).2
    simpa using this
  · intro hempty
    refine ⟨?_, hnilS hempty⟩
    unfold read_snapshot get_all_test_suites_internal
    rw [hnilS hempty]
    rfl
  · intro hempty
    refine ⟨?_, hnilR hempty⟩
    unfold read_snapshot get_all_runs_internal
    rw [hnilR hempty]
    rfl

/-- Witness for C3: writing the empty document over a populated store,
then reading, yields zero suites and zero runs. -/
theorem write_snapshot_delete_not_present_witness :
    ∃ s', write_snapshot populatedDbState emptyDoc = .ok s' ∧
      (read_snapshot s' 7).test_suites = [] ∧ (read_snapshot s' 7).runs = [] := by
  obtain ⟨s', hok⟩ : ∃ s', write_snapshot populatedDbState emptyDoc = .ok s' := ⟨_, rfl⟩
  have h := write_snapshot_delete_not_present populatedDbState s' emptyDoc 7 hok
  exact ⟨s', hok, (h.2.2.1 rfl).1, (h.2.2.2 rfl).1⟩

-- ============================================================================
-- Replace-children semantics (C2)
-- ============================================================================

/-- Reading the cases of suite `sid` when its freshly encoded block sits
after rows of other suites yields exactly the supplied list: the block's
sort orders are dense and increasing, so the `ORDER BY sort_order` read
returns insertion order. -/
theorem get_cases_of_block (s' : DbState) (sid : String) (cs : List TestCase)
    (tc : List CaseRow) (h : s'.test_cases = tc ++ encodedCaseRows sid 0 cs)
    (hpre : ∀ r ∈ tc, r.test_suite_id ≠ sid) :
    get_test_cases_for_suite s' sid = cs := by
  unfold get_test_cases_for_suite
  rw [h, List.filter_append]
  have h1 : tc.filter (fun c => c.test_suite_id = sid) = [] := by
    rw [List.filter_eq_nil_iff]
    intro a ha
    simpa using hpre a ha
  have h2 : (encodedCaseRows sid 0 cs).filter (fun c => c.test_suite_id = sid) =
      encodedCaseRows sid 0 cs := by
    rw [List.filter_eq_self]
    intro a ha
    simpa using mem_encodedCaseRows_suite_id sid 0 cs a ha
  rw [h1, h2, List.nil_append,
    List.Sorted.insertionSort_eq (encodedCaseRows_sorted sid 0 cs)]
  exact map_decode_encodedCaseRows sid 0 cs

/-- Claim C2: after a successful `save_test_suite`, reading the suite's
cases returns exactly the supplied list in supplied order (sort positions
are assigned densely by list index), the suite listing contains the suite
with exactly those cases, and every case previously stored under the
suite id but omitted from the call is gone — destructive replace, not a
merge. -/
theorem save_test_suite_replace_semantics (s s' : DbState) (suite : TestSuite)
    (hnodupC : (s.test_cases.map (fun c => c.id)).Nodup)
    (hok : save_test_suite s suite = .ok s') :
    get_test_cases_for_suite s' suite.id = suite.test_cases ∧
    (∃ t ∈ get_all_test_suites_internal s', t.id = suite.id ∧
      t.test_cases = suite.test_cases) ∧
    (∀ c0 ∈ s.test_cases, c0.test_suite_id = suite.id →
      c0.id ∉ suite.test_cases.map (fun c => c.id) →
      ∀ c1 ∈ s'.test_cases, c1.id ≠ c0.id) := by
  have hchar := save_test_suite_ok_inv s suite s' hok
  have hcases : get_test_cases_for_suite s' suite.id = suite.test_cases := by
    refine get_cases_of_block s' suite.id suite.test_cases
      (s.test_cases.filter (fun c => c.test_suite_id ≠ suite.id)) ?_ ?_
    · rw [hchar]
    · intro r hr
      simpa using (List.mem_filter.mp hr).2
  refine ⟨hcases, ?_, ?_⟩
  · obtain ⟨r1, hr1, hi1⟩ : ∃ r ∈ s'.test_suites, r.id = suite.id := by
      rw [hchar]
      exact upsertSuiteRow_mem_id s.test_suites suite
    refine ⟨decodeSuiteRow r1 (get_test_cases_for_suite s' r1.id), ?_, hi1, ?_⟩
    · unfold get_all_test_suites_internal
      exact List.mem_map_of_mem _
        ((List.perm_insertionSort _ s'.test_suites).mem_iff.mpr hr1)
    · show get_test_cases_for_suite s' r1.id = suite.test_cases
      rw [hi1]
      exact hcases
  · intro c0 hc0mem hc0sid hcid0 c1 hc1
    rw [hchar] at hc1
    simp only [List.mem_append] at hc1
    rcases hc1 with hc1 | hc1
    · have hmem := List.mem_filter.mp hc1
      intro heq
      have hceq : c1 = c0 := List.inj_on_of_nodup_map hnodupC hmem.1 hc0mem heq
      have : c1.test_suite_id ≠ suite.id := by simpa using hmem.2
      rw [hceq, hc0sid] at this
      exact this rfl
    · intro heq
      apply hcid0
      rw [← heq]
      have hin : c1.id ∈ (encodedCaseRows suite.id 0 suite.test_cases).map
          (fun r => r.id) := List.mem_map_of_mem _ hc1
      rwa [encodedCaseRows_map_id] at hin

/-- Witness for C2, the spec's own example: resaving suite s1 with only
case c2 lists exactly c2 and leaves no trace of c1. -/
theorem save_test_suite_replace_semantics_witness :
    ∃ s', save_test_suite populatedDbState
        { dupCaseSuite with test_cases := [caseC2] } = .ok s' ∧
      get_test_cases_for_suite s' "s1" = [caseC2] ∧
      ∀ c1 ∈ s'.test_cases, c1.id ≠ "c1" := by
  obtain ⟨s', hok⟩ : ∃ s', save_test_suite populatedDbState
      { dupCaseSuite with test_cases := [caseC2] } = .ok s' := ⟨_, rfl⟩
  have h := save_test_suite_replace_semantics populatedDbState s'
    { dupCaseSuite with test_cases := [caseC2] } (by decide) hok
  refine ⟨s', hok, h.1, ?_⟩
  intro c1 hc1
  exact h.2.2 (encodeCaseRow "s1" 0 caseC1) (by simp [populatedDbState])
    (by decide) (by decide) c1 hc1

-- ============================================================================
-- Migration lemmas (C7, C8)
-- ============================================================================

theorem migrateCaseList_ok (sid : String) :
    ∀ (idx : Nat) (cs : List TestCase) (st : DbState),
      (∃ t ∈ st.test_suites, t.id = sid) →
      ∃ st', migrateCaseList sid idx cs st = .ok st' ∧
        st'.schema_version = st.schema_version ∧ st'.test_suites = st.test_suites ∧
        st'.runs = st.runs ∧ st'.test_case_results = st.test_case_results ∧
        st'.app_state = st.app_state ∧ st'.legacy = st.legacy
  | _, [], st, _ => ⟨st, rfl, rfl, rfl, rfl, rfl, rfl, rfl⟩
  | idx, c :: cs, st, hsuite => by
    have hfk : ∃ t ∈ st.test_suites, t.id = (encodeCaseRow sid idx c).test_suite_id := hsuite
    have hstep : replaceCaseRow st (encodeCaseRow sid idx c) = .ok
        { st with test_cases :=
          (st.test_cases.filter (fun c0 => c0.id ≠ (encodeCaseRow sid idx c).id)) ++
            [encodeCaseRow sid idx c] } := by
      unfold replaceCaseRow
      rw [if_pos hfk]
    obtain ⟨st', h1, h2, h3, h4, h5, h6, h7⟩ :=
      migrateCaseList_ok sid (idx + 1) cs
        { st with test_cases :=
          (st.test_cases.filter (fun c0 => c0.id ≠ (encodeCaseRow sid idx c).id)) ++
            [encodeCaseRow sid idx c] } hsuite
    refine ⟨st', ?_, h2, h3, h4, h5, h6, h7⟩
    rw [show migrateCaseList sid idx (c :: cs) st = migrateCaseList sid (idx + 1) cs
        { st with test_cases :=
          (st.test_cases.filter (fun c0 => c0.id ≠ (encodeCaseRow sid idx c).id)) ++
            [encodeCaseRow sid idx c] } from by
      simp only [migrateCaseList]; rw [hstep]]
    exact h1

theorem insertResultList_preserves (rid : String) (rs : List TestCaseResult)
    (st st' : DbState) (h : insertResultList rid rs st = .ok st') :
    st'.schema_version = st.schema_version ∧ st'.legacy = st.legacy ∧
    st'.app_state = st.app_state ∧ st'.test_suites = st.test_suites ∧
    st'.test_cases = st.test_cases ∧ st'.runs = st.runs := by
  rw [insertResultList_ok_inv rid rs st st' h]
  exact ⟨rfl, rfl, rfl, rfl, rfl, rfl⟩

theorem migrateSuitesLoop_ok :
    ∀ (L : List TestSuite) (st : DbState),
      ∃ st', migrateSuitesLoop L st = .ok st' ∧
        st'.schema_version = st.schema_version ∧ st'.legacy = st.legacy ∧
        st'.app_state = st.app_state ∧ st'.runs = st.runs ∧
        st'.test_case_results = st.test_case_results
  | [], st => ⟨st, rfl, rfl, rfl, rfl, rfl, rfl⟩
  | suite :: rest, st => by
    have hsuite : ∃ t ∈ (replaceSuiteRow st suite).test_suites, t.id = suite.id := by
      unfold replaceSuiteRow
      exact ⟨mkSuiteRow suite, List.mem_append_right _ (List.mem_singleton_self _), rfl⟩
    obtain ⟨st1, h1, hv1, hsu1, hruns1, hres1, happ1, hleg1⟩ :=
      migrateCaseList_ok suite.id 0 suite.test_cases (replaceSuiteRow st suite) hsuite
    obtain ⟨st2, h2, hv2, hleg2, happ2, hruns2, hres2⟩ := migrateSuitesLoop_ok rest st1
    refine ⟨st2, ?_, ?_, ?_, ?_, ?_, ?_⟩
    · rw [show migrateSuitesLoop (suite :: rest) st = migrateSuitesLoop rest st1 from by
        simp only [migrateSuitesLoop]; rw [h1]]
      exact h2
    · exact hv2.trans (hv1.trans
        (show (replaceSuiteRow st suite).schema_version = st.schema_version from rfl))
    · exact hleg2.trans (hleg1.trans
        (show (replaceSuiteRow st suite).legacy = st.legacy from rfl))
    · exact happ2.trans (happ1.trans
        (show (replaceSuiteRow st suite).app_state = st.app_state from rfl))
    · exact hruns2.trans (hruns1.trans
        (show (replaceSuiteRow st suite).runs = st.runs from rfl))
    · exact hres2.trans (hres1.trans
        (show (replaceSuiteRow st suite).test_case_results = st.test_case_results from rfl))

theorem migrateRunsLoop_ok :
    ∀ (L : List RunResult) (st : DbState),
      ∃ st', migrateRunsLoop L st = .ok st' ∧
        st'.schema_version = st.schema_version ∧ st'.legacy = st.legacy ∧
        st'.app_state = st.app_state ∧ st'.test_suites = st.test_suites ∧
        st'.test_cases = st.test_cases
  | [], st => ⟨st, rfl, rfl, rfl, rfl, rfl, rfl⟩
  | run :: rest, st => by
    have hrun : ∃ r ∈ (replaceRunRow st run).runs, r.id = run.id := by
      unfold replaceRunRow
      exact ⟨mkRunRow run, List.mem_append_right _ (List.mem_singleton_self _), rfl⟩
    obtain ⟨st1, h1⟩ : ∃ st1,
        insertResultList run.id run.results (replaceRunRow st run) = .ok st1 :=
      ⟨_, insertResultList_ok run.id run.results (replaceRunRow st run) hrun⟩
    obtain ⟨hv1, hleg1, happ1, hsu1, htc1, _⟩ :=
      insertResultList_preserves run.id run.results _ st1 h1
    obtain ⟨st2, h2, hv2, hleg2, happ2, hsu2, htc2⟩ := migrateRunsLoop_ok rest st1
    refine ⟨st2, ?_, ?_, ?_, ?_, ?_, ?_⟩
    · rw [show migrateRunsLoop (run :: rest) st = migrateRunsLoop rest st1 from by
        simp only [migrateRunsLoop]; rw [h1]]
      exact h2
    · exact hv2.trans (hv1.trans
        (show (replaceRunRow st run).schema_version = st.schema_version from rfl))
    · exact hleg2.trans (hleg1.trans
        (show (replaceRunRow st run).legacy = st.legacy from rfl))
    · exact happ2.trans (happ1.trans
        (show (replaceRunRow st run).app_state = st.app_state from rfl))
    · exact hsu2.trans (hsu1.trans
        (show (replaceRunRow st run).test_suites = st.test_suites from rfl))
    · exact htc2.trans (htc1.trans
        (show (replaceRunRow st run).test_cases = st.test_cases from rfl))

theorem migrate_from_snapshot_decode_error (s : DbState) (e : String)
    (h : s.legacy = some (some (.error e))) :
    migrate_from_snapshot s = .error ("Failed to parse old snapshot: " ++ e, s) := by
  unfold migrate_from_snapshot
  rw [h]

theorem migrate_from_snapshot_empty_table (s : DbState)
    (h : s.legacy = some none) : migrate_from_snapshot s = .ok s := by
  unfold migrate_from_snapshot
  rw [h]

theorem migrate_from_snapshot_ok_payload (s : DbState) (old : BenchmakerDb)
    (h : s.legacy = some (some (.ok old))) :
    ∃ s', migrate_from_snapshot s = .ok s' ∧ s'.legacy = none ∧
      s'.schema_version = s.schema_version := by
  obtain ⟨s1, h1, hv1, hleg1, happ1, hruns1, hres1⟩ := migrateSuitesLoop_ok old.test_suites s
  obtain ⟨s2, h2, hv2, hleg2, happ2, hsu2, htc2⟩ := migrateRunsLoop_ok old.runs s1
  refine ⟨{ updateAppStateRow s2 old.active_test_suite_id old.current_run_id with
    legacy := none }, ?_, rfl, ?_⟩
  · rw [show migrate_from_snapshot s =
        (match migrateSuitesLoop old.test_suites s with
          | .error e => (.error e : DbResult)
          | .ok s1 =>
            match migrateRunsLoop old.runs s1 with
            | .error e => .error e
            | .ok s2 => .ok { updateAppStateRow s2 old.active_test_suite_id
                old.current_run_id with legacy := none }) from by
      unfold migrate_from_snapshot
      rw [h]]
    rw [h1]
    show (match migrateRunsLoop old.runs s1 with
      | .error e => (.error e : DbResult)
      | .ok s2 => .ok { updateAppStateRow s2 old.active_test_suite_id
          old.current_run_id with legacy := none }) = _
    rw [h2]
  · show s2.schema_version = s.schema_version
    exact hv2.trans hv1

theorem migrate_database_decode_error (s : DbState) (e : String)
    (hv : s.schema_version.getD 0 < 2)
    (hleg : s.legacy = some (some (.error e))) :
    migrate_database s =
      .error ("Failed to parse old snapshot: " ++ e, create_normalized_tables s) := by
  unfold migrate_database
  rw [if_pos (show s.schema_version.getD 0 < CURRENT_SCHEMA_VERSION from hv),
    if_pos (show s.legacy.isSome = true ∧ s.schema_version.getD 0 < 2 from
      ⟨by rw [hleg]; rfl, hv⟩),
    migrate_from_snapshot_decode_error (create_normalized_tables s) e
      (show (create_normalized_tables s).legacy = some (some (.error e)) from hleg)]

theorem migrate_database_ok_of_payload (s : DbState) (old : BenchmakerDb)
    (hv : s.schema_version.getD 0 < 2)
    (hleg : s.legacy = some (some (.ok old))) :
    ∃ s', migrate_database s = .ok s' ∧
      s'.schema_version = some CURRENT_SCHEMA_VERSION ∧ s'.legacy = none := by
  obtain ⟨s2, h2, hleg2, hv2⟩ := migrate_from_snapshot_ok_payload
    (create_normalized_tables s) old
    (show (create_normalized_tables s).legacy = some (some (.ok old)) from hleg)
  refine ⟨{ s2 with schema_version := some CURRENT_SCHEMA_VERSION }, ?_, rfl, hleg2⟩
  unfold migrate_database
  rw [if_pos (show s.schema_version.getD 0 < CURRENT_SCHEMA_VERSION from hv),
    if_pos (show s.legacy.isSome = true ∧ s.schema_version.getD 0 < 2 from
      ⟨by rw [hleg]; rfl, hv⟩), h2]

theorem migrate_database_error_inv (s : DbState) (m : String) (s' : DbState)
    (h : migrate_database s = .error (m, s')) :
    s.schema_version.getD 0 < 2 ∧
    ∃ e, s.legacy = some (some (.error e)) ∧
      m = "Failed to parse old snapshot: " ++ e ∧
      s' = create_normalized_tables s := by
  by_cases hv : s.schema_version.getD 0 < CURRENT_SCHEMA_VERSION
  · cases hL : s.legacy with
    | none =>
      have hfwd : migrate_database s = .ok { create_normalized_tables s with
          schema_version := some CURRENT_SCHEMA_VERSION } := by
        unfold migrate_database
        rw [if_pos hv, if_neg (by simp [hL])]
      rw [hfwd] at h
      exact absurd h (by simp)
    | some opt =>
      cases opt with
      | none =>
        have hfwd : migrate_database s = .ok { create_normalized_tables s with
            schema_version := some CURRENT_SCHEMA_VERSION } := by
          unfold migrate_database
          rw [if_pos hv,
            if_pos (show s.legacy.isSome = true ∧ s.schema_version.getD 0 < 2 from
              ⟨by rw [hL]; rfl, hv⟩),
            migrate_from_snapshot_empty_table (create_normalized_tables s)
              (show (create_normalized_tables s).legacy = some none from hL)]
        rw [hfwd] at h
        exact absurd h (by simp)
      | some pay =>
        cases pay with
        | error e =>
          rw [migrate_database_decode_error s e hv hL] at h
          simp only [Except.error.injEq, Prod.mk.injEq] at h
          exact ⟨hv, e, rfl, h.1.symm, h.2.symm⟩
        | ok old =>
          obtain ⟨s2, hfwd, _, _⟩ := migrate_database_ok_of_payload s old hv hL
          rw [hfwd] at h
          exact absurd h (by simp)
  · have hfwd : migrate_database s = .ok s := by
      unfold migrate_database
      rw [if_neg hv]
    rw [hfwd] at h
    exact absurd h (by simp)

/-- Claim C7: if a migration step fails, the whole migration aborts with
an explicit error and the schema version row is not advanced (the version
upsert is only reached on full success), so a retried open re-attempts
the same migration and fails the same way; in the model the only fallible
step is the legacy decode, whose error is reported inside the
"Failed to parse old snapshot: " message verbatim with no partial
recovery. -/
theorem migration_failure_policy (s : DbState) (m : String) (s' : DbState)
    (herr : migrate_database s = .error (m, s')) :
    s'.schema_version = s.schema_version ∧
    (∃ e, s.legacy = some (some (.error e)) ∧
      m = "Failed to parse old snapshot: " ++ e) ∧
    migrate_database s' = .error (m, create_normalized_tables s') := by
  obtain ⟨hv, e, hleg, hm, hs'⟩ := migrate_database_error_inv s m s' herr
  subst hs'
  refine ⟨rfl, ⟨e, hleg, hm⟩, ?_⟩
  rw [hm]
  exact migrate_database_decode_error (create_normalized_tables s) e hv hleg

/-- A store whose legacy payload row does not decode. -/
def badLegacyState : DbState :=
  { schema_version := none
    test_suites := []
    test_cases := []
    runs := []
    test_case_results := []
    app_state := none
    legacy := some (some (.error "boom")) }

/-- Witness for C7: opening the store with the corrupt legacy blob fails
and does not advance the version. -/
theorem migration_failure_policy_witness :
    ∃ m s', migrate_database badLegacyState = .error (m, s') ∧
      s'.schema_version = badLegacyState.schema_version ∧
      m = "Failed to parse old snapshot: " ++ "boom" := by
  obtain ⟨m, s', herr⟩ : ∃ m s', migrate_database badLegacyState = .error (m, s') :=
    ⟨_, _, rfl⟩
  have h := migration_failure_policy badLegacyState m s' herr
  obtain ⟨e, hleg, hm⟩ := h.2.1
  have he : e = "boom" := by
    have : (some (some (.error "boom")) :
        Option (Option (Except String BenchmakerDb))) = some (some (.error e)) := hleg
    simpa using this.symm
  exact ⟨m, s', herr, h.1, by rw [hm, he]⟩

/-- A store that contains the legacy table but not its payload row. -/
def emptyLegacyTableState : DbState :=
  { schema_version := none
    test_suites := []
    test_cases := []
    runs := []
    test_case_results := []
    app_state := none
    legacy := some none }

/-- Counterexample to claim C8 as stated: this store has installed
version 0 (below the target) and contains the legacy table
`benchmaker_snapshot` (with no payload row); `migrate_database` succeeds
and sets the version to the target, yet the legacy table is NOT dropped —
the `DROP TABLE` sits inside the `if let Some(payload)` block of
`migrate_from_snapshot`, which is skipped when the payload row is
absent. -/
theorem migration_keeps_empty_legacy_table :
    emptyLegacyTableState.schema_version.getD 0 < CURRENT_SCHEMA_VERSION ∧
    emptyLegacyTableState.legacy.isSome = true ∧
    ∃ s', migrate_database emptyLegacyTableState = .ok s' ∧
      s'.schema_version = some CURRENT_SCHEMA_VERSION ∧
      s'.legacy = some none ∧ s'.legacy ≠ none := by
  refine ⟨by decide, by decide, ?_⟩
  exact ⟨_, rfl, rfl, rfl, by decide⟩

/-- Claim C8 (amended): for every store with installed version below the
target whose legacy table is present *with its payload row*, a successful
migration leaves the version at the target and the legacy table dropped,
and on any migration failure the legacy table is untouched (the drop only
happens after the re-insert completed without error). Without the payload
row the version still advances but the empty legacy table is left in
place (see the counterexample). -/
theorem migration_drops_legacy_with_payload (s : DbState)
    (pay : Except String BenchmakerDb)
    (hv : s.schema_version.getD 0 < CURRENT_SCHEMA_VERSION)
    (hleg : s.legacy = some (some pay)) :
    (∀ s', migrate_database s = .ok s' →
      s'.schema_version = some CURRENT_SCHEMA_VERSION ∧ s'.legacy = none) ∧
    (∀ m s', migrate_database s = .error (m, s') → s'.legacy = s.legacy) := by
  constructor
  · intro s' hok
    cases pay with
    | error e =>
      rw [migrate_database_decode_error s e hv hleg] at hok
      exact absurd hok (by simp)
    | ok old =>
      obtain ⟨s'', hdb, hv'', hleg''⟩ := migrate_database_ok_of_payload s old hv hleg
      rw [hdb] at hok
      simp only [Except.ok.injEq] at hok
      exact ⟨hok ▸ hv'', hok ▸ hleg''⟩
  · intro m s' herr
    obtain ⟨_, e, _, _, hs'⟩ := migrate_database_error_inv s m s' herr
    subst hs'
    rfl

/-- A store whose legacy payload row decodes to the empty document. -/
def okLegacyState : DbState :=
  { schema_version := none
    test_suites := []
    test_cases := []
    runs := []
    test_case_results := []
    app_state := none
    legacy := some (some (.ok emptyDoc)) }

/-- Witness for the amended C8: migrating a store whose payload decodes
advances the version to the target and drops the legacy table. -/
theorem migration_drops_legacy_with_payload_witness :
    okLegacyState.schema_version.getD 0 < CURRENT_SCHEMA_VERSION ∧
    ∃ s', migrate_database okLegacyState = .ok s' ∧
      s'.schema_version = some CURRENT_SCHEMA_VERSION ∧ s'.legacy = none := by
  obtain ⟨s', hok⟩ : ∃ s', migrate_database okLegacyState = .ok s' := ⟨_, rfl⟩
  have h := (migration_drops_legacy_with_payload okLegacyState (.ok emptyDoc)
    (by decide) rfl).1 s' hok
  exact ⟨by decide, s', hok, h.1, h.2⟩

-- ============================================================================
-- Round-trip helpers (C6)
-- ============================================================================

theorem option_map_pointer_self (o : Option (Option String × Option String)) :
    o.map (fun _ => ((o.getD (none, none)).1, (o.getD (none, none)).2)) = o := by
  cases o <;> rfl

/-- Reading suite `sid` when its encoded block sits between rows of other
suites yields exactly the block's source list. -/
theorem get_cases_of_mid_block (s' : DbState) (sid : String) (cs : List TestCase)
    (pre post : List CaseRow)
    (h : s'.test_cases = pre ++ (encodedCaseRows sid 0 cs ++ post))
    (hpre : ∀ r ∈ pre, r.test_suite_id ≠ sid)
    (hpost : ∀ r ∈ post, r.test_suite_id ≠ sid) :
    get_test_cases_for_suite s' sid = cs := by
  unfold get_test_cases_for_suite
  rw [h, List.filter_append, List.filter_append]
  have h1 : pre.filter (fun c => c.test_suite_id = sid) = [] := by
    rw [List.filter_eq_nil_iff]
    intro a ha
    simpa using hpre a ha
  have h2 : (encodedCaseRows sid 0 cs).filter (fun c => c.test_suite_id = sid) =
      encodedCaseRows sid 0 cs := by
    rw [List.filter_eq_self]
    intro a ha
    simpa using mem_encodedCaseRows_suite_id sid 0 cs a ha
  have h3 : post.filter (fun c => c.test_suite_id = sid) = [] := by
    rw [List.filter_eq_nil_iff]
    intro a ha
    simpa using hpost a ha
  rw [h1, h2, h3, List.nil_append, List.append_nil,
    List.Sorted.insertionSort_eq (encodedCaseRows_sorted sid 0 cs)]
  exact map_decode_encodedCaseRows sid 0 cs

/-- Reading the results of run `rid` when its encoded block sits between
rows of other runs yields exactly the block's source list. -/
theorem get_results_of_mid_block (s' : DbState) (rid : String)
    (rs : List TestCaseResult) (pre post : List ResultRow)
    (h : s'.test_case_results = pre ++ (rs.map (encodeResultRow rid) ++ post))
    (hpre : ∀ r ∈ pre, r.run_id ≠ rid)
    (hpost : ∀ r ∈ post, r.run_id ≠ rid) :
    get_results_for_run s' rid = rs := by
  unfold get_results_for_run
  rw [h, List.filter_append, List.filter_append]
  have h1 : pre.filter (fun c => c.run_id = rid) = [] := by
    rw [List.filter_eq_nil_iff]
    intro a ha
    simpa using hpre a ha
  have h2 : (rs.map (encodeResultRow rid)).filter (fun c => c.run_id = rid) =
      rs.map (encodeResultRow rid) := by
    rw [List.filter_eq_self]
    intro a ha
    obtain ⟨res, hres, hrfl⟩ := List.mem_map.mp ha
    subst hrfl
    simp [encodeResultRow]
  have h3 : post.filter (fun c => c.run_id = rid) = [] := by
    rw [List.filter_eq_nil_iff]
    intro a ha
    simpa using hpost a ha
  rw [h1, h2, h3, List.nil_append, List.append_nil, List.map_map]
  have hcomp : (decodeResultRow ∘ encodeResultRow rid) = fun res => res := by
    funext res
    exact decodeResultRow_encodeResultRow rid res
  rw [hcomp]
  exact List.map_id rs

/-- The ids of a suite's read-back cases are ids of stored case rows of
that suite. -/
theorem mem_get_cases_orig (s : DbState) (sid : String) (c : TestCase)
    (hc : c ∈ get_test_cases_for_suite s sid) :
    ∃ c0 ∈ s.test_cases, c0.test_suite_id = sid ∧ c0.id = c.id := by
  unfold get_test_cases_for_suite at hc
  obtain ⟨row, hrow, hdec⟩ := List.mem_map.mp hc
  have hrow' : row ∈ s.test_cases.filter (fun c => c.test_suite_id = sid) :=
    (List.perm_insertionSort _ _).mem_iff.mp hrow
  have hm := List.mem_filter.mp hrow'
  refine ⟨row, hm.1, by simpa using hm.2, ?_⟩
  rw [← hdec]
  rfl

/-- Read-back case ids of a suite are distinct when stored case ids are. -/
theorem get_cases_ids_nodup (s : DbState) (sid : String)
    (hnodupC : (s.test_cases.map (fun c => c.id)).Nodup) :
    ((get_test_cases_for_suite s sid).map (fun c => c.id)).Nodup := by
  unfold get_test_cases_for_suite
  rw [List.map_map]
  show ((((s.test_cases.filter (fun c => c.test_suite_id = sid)).insertionSort
    (fun a b => a.sort_order ≤ b.sort_order)).map (fun r => r.id))).Nodup
  have hsub : List.Sublist
      ((s.test_cases.filter (fun c => c.test_suite_id = sid)).map (fun r => r.id))
      (s.test_cases.map (fun c => c.id)) :=
    (List.filter_sublist _).map _
  have hperm := (List.perm_insertionSort
    (fun (a : CaseRow) b => a.sort_order ≤ b.sort_order)
    (s.test_cases.filter (fun c => c.test_suite_id = sid))).map (fun r => r.id)
  exact hperm.nodup_iff.mpr (hsub.nodup hnodupC)

/-- A row of an encoded case block carries an id from the block's source
list. -/
theorem mem_encodedCaseRows_id (sid : String) (idx : Nat) (cs : List TestCase)
    (row : CaseRow) (h : row ∈ encodedCaseRows sid idx cs) :
    row.id ∈ cs.map (fun c => c.id) := by
  have : row.id ∈ (encodedCaseRows sid idx cs).map (fun r => r.id) :=
    List.mem_map_of_mem _ h
  rwa [encodedCaseRows_map_id] at this

/-- Upserting the decoded copy of a stored suite row back is a no-op. -/
theorem upsertSuiteRow_decode_self (rows : List SuiteRow) (r : SuiteRow)
    (cs : List TestCase) (hr : r ∈ rows)
    (hnodup : (rows.map (fun x => x.id)).Nodup) :
    upsertSuiteRow rows (decodeSuiteRow r cs) = rows := by
  unfold upsertSuiteRow
  rw [if_pos ⟨r, hr, rfl⟩]
  have hmap : ∀ x ∈ rows, (fun x =>
      if x.id = (decodeSuiteRow r cs).id then
        { x with
          name := (decodeSuiteRow r cs).name
          description := (decodeSuiteRow r cs).description
          system_prompt := (decodeSuiteRow r cs).system_prompt
          judge_system_prompt := (decodeSuiteRow r cs).judge_system_prompt
          updated_at := (decodeSuiteRow r cs).updated_at }
      else x) x = x := by
    intro x hx
    by_cases hc : x.id = (decodeSuiteRow r cs).id
    · have hxr : x = r := List.inj_on_of_nodup_map hnodup hx hr hc
      subst hxr
      show (if x.id = (decodeSuiteRow x cs).id then
        { x with
          name := (decodeSuiteRow x cs).name
          description := (decodeSuiteRow x cs).description
          system_prompt := (decodeSuiteRow x cs).system_prompt
          judge_system_prompt := (decodeSuiteRow x cs).judge_system_prompt
          updated_at := (decodeSuiteRow x cs).updated_at }
        else x) = x
      rw [if_pos hc]
      rfl
    · show (if x.id = (decodeSuiteRow r cs).id then
        { x with
          name := (decodeSuiteRow r cs).name
          description := (decodeSuiteRow r cs).description
          system_prompt := (decodeSuiteRow r cs).system_prompt
          judge_system_prompt := (decodeSuiteRow r cs).judge_system_prompt
          updated_at := (decodeSuiteRow r cs).updated_at }
        else x) = x
      rw [if_neg hc]
  rw [List.map_congr_left hmap, List.map_id']

/-- Upserting the decoded copy of a stored run row back is a no-op. -/
theorem upsertRunRow_decode_self (rows : List RunRow) (r : RunRow)
    (results : List TestCaseResult) (hr : r ∈ rows)
    (hnodup : (rows.map (fun x => x.id)).Nodup) :
    upsertRunRow rows (decodeRunRow r results) = rows := by
  unfold upsertRunRow
  rw [if_pos ⟨r, hr, rfl⟩]
  have hmap : ∀ x ∈ rows, (fun x =>
      if x.id = (decodeRunRow r results).id then
        { x with
          status := (decodeRunRow r results).status
          completed_at := (decodeRunRow r results).completed_at }
      else x) x = x := by
    intro x hx
    by_cases hc : x.id = (decodeRunRow r results).id
    · have hxr : x = r := List.inj_on_of_nodup_map hnodup hx hr hc
      subst hxr
      show (if x.id = (decodeRunRow x results).id then
        { x with
          status := (decodeRunRow x results).status
          completed_at := (decodeRunRow x results).completed_at }
        else x) = x
      rw [if_pos hc]
      rfl
    · show (if x.id = (decodeRunRow r results).id then
        { x with
          status := (decodeRunRow r results).status
          completed_at := (decodeRunRow r results).completed_at }
        else x) = x
      rw [if_neg hc]
  rw [List.map_congr_left hmap, List.map_id']

/-- Forward characterization of `save_test_suite` under the success
conditions (fresh, mutually distinct case ids). -/
theorem save_test_suite_ok (s0 : DbState) (suite : TestSuite)
    (hfresh : ∀ c ∈ suite.test_cases,
      ∀ row ∈ s0.test_cases.filter (fun c0 => c0.test_suite_id ≠ suite.id),
        row.id ≠ c.id)
    (hnodupCS : (suite.test_cases.map (fun c => c.id)).Nodup) :
    save_test_suite s0 suite = .ok
      { s0 with
        test_suites := upsertSuiteRow s0.test_suites suite
        test_cases :=
          s0.test_cases.filter (fun c0 => c0.test_suite_id ≠ suite.id) ++
            encodedCaseRows suite.id 0 suite.test_cases } := by
  unfold save_test_suite
  exact insertCaseList_ok suite.id 0 suite.test_cases _ hfresh hnodupCS
    (upsertSuiteRow_mem_id s0.test_suites suite)

/-- Re-saving the suites of a snapshot read in read order: after the
processed prefix `P` of the sorted suite rows, the suite table is
untouched and the case table consists of the unprocessed suites' original
rows followed by the freshly encoded blocks of the processed suites. -/
theorem writeSuitesLoop_roundtrip (s : DbState)
    (hnodupS : (s.test_suites.map (fun r => r.id)).Nodup)
    (hnodupC : (s.test_cases.map (fun c => c.id)).Nodup) :
    ∀ (L P : List SuiteRow),
      P ++ L = s.test_suites.insertionSort (fun a b => b.updated_at ≤ a.updated_at) →
      writeSuitesLoop
        (L.map (fun r => decodeSuiteRow r (get_test_cases_for_suite s r.id)))
        { s with test_cases :=
          s.test_cases.filter (fun c => ∀ p ∈ P, c.test_suite_id ≠ p.id) ++
            (P.map (fun p => encodedCaseRows p.id 0
              (get_test_cases_for_suite s p.id))).flatten } =
      .ok { s with test_cases :=
        s.test_cases.filter (fun c => ∀ p ∈ P ++ L, c.test_suite_id ≠ p.id) ++
          ((P ++ L).map (fun p => encodedCaseRows p.id 0
            (get_test_cases_for_suite s p.id))).flatten }
  | [], P, hPL => by
    simp [writeSuitesLoop, List.append_nil]
  | r :: L', P, hPL => by
    have hsorted_perm := List.perm_insertionSort
      (fun (a : SuiteRow) b => b.updated_at ≤ a.updated_at) s.test_suites
    have hidsN : ((P ++ r :: L').map (fun x => x.id)).Nodup := by
      rw [hPL]
      exact (hsorted_perm.map (fun x => x.id)).nodup_iff.mpr hnodupS
    have hr_mem : r ∈ s.test_suites := by
      have hmem : r ∈ P ++ r :: L' :=
        List.mem_append_right _ (List.mem_cons_self r L')
      rw [hPL] at hmem
      exact hsorted_perm.mem_iff.mp hmem
    have hidsN2 := hidsN
    rw [List.map_append, List.map_cons] at hidsN2
    have hsplit := List.nodup_append.mp hidsN2
    have hPr : ∀ p ∈ P, p.id ≠ r.id := by
      intro p hp hpe
      exact hsplit.2.2 (List.mem_map_of_mem _ hp)
        (by rw [hpe]; exact List.mem_cons_self _ _)
    -- freshness of the re-inserted case ids
    have hfresh : ∀ c ∈ (decodeSuiteRow r (get_test_cases_for_suite s r.id)).test_cases,
        ∀ row ∈ (({ s with test_cases :=
            s.test_cases.filter (fun c => ∀ p ∈ P, c.test_suite_id ≠ p.id) ++
              (P.map (fun p => encodedCaseRows p.id 0
                (get_test_cases_for_suite s p.id))).flatten } : DbState)).test_cases.filter
            (fun c0 => c0.test_suite_id ≠
              (decodeSuiteRow r (get_test_cases_for_suite s r.id)).id),
          row.id ≠ c.id := by
      intro c hc row hrow
      obtain ⟨c0, hc0mem, hc0sid, hc0id⟩ := mem_get_cases_orig s r.id c hc
      have hrow1 := List.mem_filter.mp hrow
      have hrowNe : row.test_suite_id ≠ r.id := by simpa using hrow1.2
      rcases List.mem_append.mp hrow1.1 with hrow2 | hrow2
      · have hrow3 := (List.mem_filter.mp hrow2).1
        intro heq
        have hrc0 : row = c0 :=
          List.inj_on_of_nodup_map hnodupC hrow3 hc0mem (by rw [heq, ← hc0id])
        exact hrowNe (by rw [hrc0, hc0sid])
      · obtain ⟨blk, hblk, hrowblk⟩ := List.mem_flatten.mp hrow2
        obtain ⟨p, hp, hpe⟩ := List.mem_map.mp hblk
        subst hpe
        have hrowid := mem_encodedCaseRows_id p.id 0
          (get_test_cases_for_suite s p.id) row hrowblk
        obtain ⟨c1, hc1, hc1id⟩ := List.mem_map.mp hrowid
        obtain ⟨c10, hc10mem, hc10sid, hc10id⟩ := mem_get_cases_orig s p.id c1 hc1
        intro heq
        have hc10c0 : c10 = c0 :=
          List.inj_on_of_nodup_map hnodupC hc10mem hc0mem
            (by rw [hc10id, hc1id, heq, ← hc0id])
        exact hPr p hp (by rw [← hc10sid, hc10c0, hc0sid])
    have hsave := save_test_suite_ok
      { s with test_cases :=
        s.test_cases.filter (fun c => ∀ p ∈ P, c.test_suite_id ≠ p.id) ++
          (P.map (fun p => encodedCaseRows p.id 0
            (get_test_cases_for_suite s p.id))).flatten }
      (decodeSuiteRow r (get_test_cases_for_suite s r.id)) hfresh
      (get_cases_ids_nodup s r.id hnodupC)
    -- rewrite the saved record fields into the invariant form for P ++ [r]
    have hTS : upsertSuiteRow
        (({ s with test_cases :=
          s.test_cases.filter (fun c => ∀ p ∈ P, c.test_suite_id ≠ p.id) ++
            (P.map (fun p => encodedCaseRows p.id 0
              (get_test_cases_for_suite s p.id))).flatten } : DbState)).test_suites
        (decodeSuiteRow r (get_test_cases_for_suite s r.id)) = s.test_suites :=
      upsertSuiteRow_decode_self s.test_suites r
        (get_test_cases_for_suite s r.id) hr_mem hnodupS
    have hTC : (({ s with test_cases :=
          s.test_cases.filter (fun c => ∀ p ∈ P, c.test_suite_id ≠ p.id) ++
            (P.map (fun p => encodedCaseRows p.id 0
              (get_test_cases_for_suite s p.id))).flatten } : DbState)).test_cases.filter
          (fun c0 => c0.test_suite_id ≠
            (decodeSuiteRow r (get_test_cases_for_suite s r.id)).id) ++
        encodedCaseRows (decodeSuiteRow r (get_test_cases_for_suite s r.id)).id 0
          (decodeSuiteRow r (get_test_cases_for_suite s r.id)).test_cases =
        s.test_cases.filter (fun c => ∀ p ∈ P ++ [r], c.test_suite_id ≠ p.id) ++
          ((P ++ [r]).map (fun p => encodedCaseRows p.id 0
            (get_test_cases_for_suite s p.id))).flatten := by
      show (s.test_cases.filter (fun c => ∀ p ∈ P, c.test_suite_id ≠ p.id) ++
          (P.map (fun p => encodedCaseRows p.id 0
            (get_test_cases_for_suite s p.id))).flatten).filter
          (fun c0 => c0.test_suite_id ≠ r.id) ++
        encodedCaseRows r.id 0 (get_test_cases_for_suite s r.id) = _
      rw [List.filter_append]
      have ha : (s.test_cases.filter
          (fun c => ∀ p ∈ P, c.test_suite_id ≠ p.id)).filter
          (fun c0 => c0.test_suite_id ≠ r.id) =
          s.test_cases.filter (fun c => ∀ p ∈ P ++ [r], c.test_suite_id ≠ p.id) := by
        rw [List.filter_filter]
        apply List.filter_congr
        intro c _
        have hiff : (c.test_suite_id ≠ r.id ∧ ∀ p ∈ P, c.test_suite_id ≠ p.id) ↔
            (∀ p ∈ P ++ [r], c.test_suite_id ≠ p.id) := by
          constructor
          · rintro ⟨h1, h2⟩ p hp
            rcases List.mem_append.mp hp with hp' | hp'
            · exact h2 p hp'
            · rw [List.mem_singleton] at hp'
              subst hp'
              exact h1
          · intro h
            exact ⟨h r (List.mem_append_right _ (List.mem_singleton_self r)),
              fun p hp => h p (List.mem_append_left _ hp)⟩
        have hbool : (decide (c.test_suite_id ≠ r.id) &&
            decide (∀ p ∈ P, c.test_suite_id ≠ p.id)) =
            decide (c.test_suite_id ≠ r.id ∧ ∀ p ∈ P, c.test_suite_id ≠ p.id) := by
          by_cases h1 : c.test_suite_id ≠ r.id <;>
            by_cases h2 : (∀ p ∈ P, c.test_suite_id ≠ p.id) <;> simp [h1, h2]
        rw [hbool, decide_eq_decide.mpr hiff]
      have hb : ((P.map (fun p => encodedCaseRows p.id 0
          (get_test_cases_for_suite s p.id))).flatten).filter
          (fun c0 => c0.test_suite_id ≠ r.id) =
          (P.map (fun p => encodedCaseRows p.id 0
            (get_test_cases_for_suite s p.id))).flatten := by
        rw [List.filter_eq_self]
        intro row hrow
        obtain ⟨blk, hblk, hrowblk⟩ := List.mem_flatten.mp hrow
        obtain ⟨p, hp, hpe⟩ := List.mem_map.mp hblk
        subst hpe
        have := mem_encodedCaseRows_suite_id p.id 0
          (get_test_cases_for_suite s p.id) row hrowblk
        simp [this]
        exact hPr p hp
      rw [ha, hb, List.map_append, List.flatten_append]
      simp [List.append_assoc]
    rw [hTS, hTC] at hsave
    have hPL2 : (P ++ [r]) ++ L' =
        s.test_suites.insertionSort (fun a b => b.updated_at ≤ a.updated_at) := by
      rw [List.append_assoc, List.singleton_append]
      exact hPL
    have IH := writeSuitesLoop_roundtrip s hnodupS hnodupC L' (P ++ [r]) hPL2
    rw [List.append_assoc, List.singleton_append] at IH
    rw [show writeSuitesLoop
        ((r :: L').map (fun r => decodeSuiteRow r (get_test_cases_for_suite s r.id)))
        { s with test_cases :=
          s.test_cases.filter (fun c => ∀ p ∈ P, c.test_suite_id ≠ p.id) ++
            (P.map (fun p => encodedCaseRows p.id 0
              (get_test_cases_for_suite s p.id))).flatten } =
        writeSuitesLoop
          (L'.map (fun r => decodeSuiteRow r (get_test_cases_for_suite s r.id)))
          { s with test_cases :=
            s.test_cases.filter (fun c => ∀ p ∈ P ++ [r], c.test_suite_id ≠ p.id) ++
              ((P ++ [r]).map (fun p => encodedCaseRows p.id 0
                (get_test_cases_for_suite s p.id))).flatten } from by
      simp only [List.map_cons, writeSuitesLoop]
      rw [hsave]]
    exact IH

/-- Re-saving the runs of a snapshot read in read order over any fixed
case table `CF`: the run table is untouched and the result table consists
of the unprocessed runs' original rows followed by the freshly encoded
blocks of the processed runs. -/
theorem writeRunsLoop_roundtrip (s : DbState)
    (hnodupR : (s.runs.map (fun r => r.id)).Nodup) (CF : List CaseRow) :
    ∀ (L P : List RunRow),
      P ++ L = s.runs.insertionSort (fun a b => b.started_at ≤ a.started_at) →
      writeRunsLoop
        (L.map (fun r => decodeRunRow r (get_results_for_run s r.id)))
        { s with
          test_cases := CF
          test_case_results :=
            s.test_case_results.filter (fun c => ∀ p ∈ P, c.run_id ≠ p.id) ++
              (P.map (fun p => (get_results_for_run s p.id).map
                (encodeResultRow p.id))).flatten } =
      .ok { s with
        test_cases := CF
        test_case_results :=
          s.test_case_results.filter (fun c => ∀ p ∈ P ++ L, c.run_id ≠ p.id) ++
            ((P ++ L).map (fun p => (get_results_for_run s p.id).map
              (encodeResultRow p.id))).flatten }
  | [], P, hPL => by
    simp [writeRunsLoop, List.append_nil]
  | r :: L', P, hPL => by
    have hsorted_perm := List.perm_insertionSort
      (fun (a : RunRow) b => b.started_at ≤ a.started_at) s.runs
    have hidsN : ((P ++ r :: L').map (fun x => x.id)).Nodup := by
      rw [hPL]
      exact (hsorted_perm.map (fun x => x.id)).nodup_iff.mpr hnodupR
    have hr_mem : r ∈ s.runs := by
      have hmem : r ∈ P ++ r :: L' :=
        List.mem_append_right _ (List.mem_cons_self r L')
      rw [hPL] at hmem
      exact hsorted_perm.mem_iff.mp hmem
    have hidsN2 := hidsN
    rw [List.map_append, List.map_cons] at hidsN2
    have hsplit := List.nodup_append.mp hidsN2
    have hPr : ∀ p ∈ P, p.id ≠ r.id := by
      intro p hp hpe
      exact hsplit.2.2 (List.mem_map_of_mem _ hp)
        (by rw [hpe]; exact List.mem_cons_self _ _)
    have hsave := save_run_eq
      { s with
        test_cases := CF
        test_case_results :=
          s.test_case_results.filter (fun c => ∀ p ∈ P, c.run_id ≠ p.id) ++
            (P.map (fun p => (get_results_for_run s p.id).map
              (encodeResultRow p.id))).flatten }
      (decodeRunRow r (get_results_for_run s r.id))
    have hRS : upsertRunRow
        (({ s with
          test_cases := CF
          test_case_results :=
            s.test_case_results.filter (fun c => ∀ p ∈ P, c.run_id ≠ p.id) ++
              (P.map (fun p => (get_results_for_run s p.id).map
                (encodeResultRow p.id))).flatten } : DbState)).runs
        (decodeRunRow r (get_results_for_run s r.id)) = s.runs :=
      upsertRunRow_decode_self s.runs r (get_results_for_run s r.id) hr_mem hnodupR
    have hRC : (({ s with
          test_cases := CF
          test_case_results :=
            s.test_case_results.filter (fun c => ∀ p ∈ P, c.run_id ≠ p.id) ++
              (P.map (fun p => (get_results_for_run s p.id).map
                (encodeResultRow p.id))).flatten } : DbState)).test_case_results.filter
          (fun c0 => c0.run_id ≠
            (decodeRunRow r (get_results_for_run s r.id)).id) ++
        (decodeRunRow r (get_results_for_run s r.id)).results.map
          (encodeResultRow (decodeRunRow r (get_results_for_run s r.id)).id) =
        s.test_case_results.filter (fun c => ∀ p ∈ P ++ [r], c.run_id ≠ p.id) ++
          ((P ++ [r]).map (fun p => (get_results_for_run s p.id).map
            (encodeResultRow p.id))).flatten := by
      show (s.test_case_results.filter (fun c => ∀ p ∈ P, c.run_id ≠ p.id) ++
          (P.map (fun p => (get_results_for_run s p.id).map
            (encodeResultRow p.id))).flatten).filter
          (fun c0 => c0.run_id ≠ r.id) ++
        (get_results_for_run s r.id).map (encodeResultRow r.id) = _
      rw [List.filter_append]
      have ha : (s.test_case_results.filter
          (fun c => ∀ p ∈ P, c.run_id ≠ p.id)).filter
          (fun c0 => c0.run_id ≠ r.id) =
          s.test_case_results.filter (fun c => ∀ p ∈ P ++ [r], c.run_id ≠ p.id) := by
        rw [List.filter_filter]
        apply List.filter_congr
        intro c _
        have hiff : (c.run_id ≠ r.id ∧ ∀ p ∈ P, c.run_id ≠ p.id) ↔
            (∀ p ∈ P ++ [r], c.run_id ≠ p.id) := by
          constructor
          · rintro ⟨h1, h2⟩ p hp
            rcases List.mem_append.mp hp with hp' | hp'
            · exact h2 p hp'
            · rw [List.mem_singleton] at hp'
              subst hp'
              exact h1
          · intro h
            exact ⟨h r (List.mem_append_right _ (List.mem_singleton_self r)),
              fun p hp => h p (List.mem_append_left _ hp)⟩
        have hbool : (decide (c.run_id ≠ r.id) &&
            decide (∀ p ∈ P, c.run_id ≠ p.id)) =
            decide (c.run_id ≠ r.id ∧ ∀ p ∈ P, c.run_id ≠ p.id) := by
          by_cases h1 : c.run_id ≠ r.id <;>
            by_cases h2 : (∀ p ∈ P, c.run_id ≠ p.id) <;> simp [h1, h2]
        rw [hbool, decide_eq_decide.mpr hiff]
      have hb : ((P.map (fun p => (get_results_for_run s p.id).map
          (encodeResultRow p.id))).flatten).filter
          (fun c0 => c0.run_id ≠ r.id) =
          (P.map (fun p => (get_results_for_run s p.id).map
            (encodeResultRow p.id))).flatten := by
        rw [List.filter_eq_self]
        intro row hrow
        obtain ⟨blk, hblk, hrowblk⟩ := List.mem_flatten.mp hrow
        obtain ⟨p, hp, hpe⟩ := List.mem_map.mp hblk
        subst hpe
        obtain ⟨res, hres, hrfl⟩ := List.mem_map.mp hrowblk
        subst hrfl
        simp [encodeResultRow]
        exact hPr p hp
      rw [ha, hb, List.map_append, List.flatten_append]
      simp [List.append_assoc]
    rw [hRS, hRC] at hsave
    have hPL2 : (P ++ [r]) ++ L' =
        s.runs.insertionSort (fun a b => b.started_at ≤ a.started_at) := by
      rw [List.append_assoc, List.singleton_append]
      exact hPL
    have IH := writeRunsLoop_roundtrip s hnodupR CF L' (P ++ [r]) hPL2
    rw [List.append_assoc, List.singleton_append] at IH
    rw [show writeRunsLoop
        ((r :: L').map (fun r => decodeRunRow r (get_results_for_run s r.id)))
        { s with
          test_cases := CF
          test_case_results :=
            s.test_case_results.filter (fun c => ∀ p ∈ P, c.run_id ≠ p.id) ++
              (P.map (fun p => (get_results_for_run s p.id).map
                (encodeResultRow p.id))).flatten } =
        writeRunsLoop
          (L'.map (fun r => decodeRunRow r (get_results_for_run s r.id)))
          { s with
            test_cases := CF
            test_case_results :=
              s.test_case_results.filter (fun c => ∀ p ∈ P ++ [r], c.run_id ≠ p.id) ++
                ((P ++ [r]).map (fun p => (get_results_for_run s p.id).map
                  (encodeResultRow p.id))).flatten } from by
      simp only [List.map_cons, writeRunsLoop]
      rw [hsave]]
    exact IH

theorem cascadeDeleteSuites_noop (st : DbState) (p : SuiteRow → Prop) [DecidablePred p]
    (h : ∀ r ∈ st.test_suites, ¬ p r) : cascadeDeleteSuites st p = st := by
  unfold cascadeDeleteSuites
  have h1 : st.test_suites.filter (fun r => ¬ p r) = st.test_suites := by
    rw [List.filter_eq_self]
    intro a ha
    simpa using h a ha
  have h2 : st.test_suites.filter (fun r => p r) = [] := by
    rw [List.filter_eq_nil_iff]
    intro a ha
    simpa using h a ha
  rw [h1, h2]
  simp

theorem cascadeDeleteRuns_noop (st : DbState) (p : RunRow → Prop) [DecidablePred p]
    (h : ∀ r ∈ st.runs, ¬ p r) : cascadeDeleteRuns st p = st := by
  unfold cascadeDeleteRuns
  have h1 : st.runs.filter (fun r => ¬ p r) = st.runs := by
    rw [List.filter_eq_self]
    intro a ha
    simpa using h a ha
  have h2 : st.runs.filter (fun r => p r) = [] := by
    rw [List.filter_eq_nil_iff]
    intro a ha
    simpa using h a ha
  rw [h1, h2]
  simp

/-- After the suites phase of a round trip, reading any suite's cases
from the rewritten table gives the same list the first read gave. -/
theorem read_cases_after_roundtrip (s st : DbState)
    (hnodupS : (s.test_suites.map (fun r => r.id)).Nodup)
    (hst : st.test_cases =
      s.test_cases.filter (fun c =>
        ∀ p ∈ s.test_suites.insertionSort
          (fun (a b : SuiteRow) => b.updated_at ≤ a.updated_at),
          c.test_suite_id ≠ p.id) ++
      ((s.test_suites.insertionSort (fun a b => b.updated_at ≤ a.updated_at)).map
        (fun p => encodedCaseRows p.id 0 (get_test_cases_for_suite s p.id))).flatten)
    (r : SuiteRow)
    (hr : r ∈ s.test_suites.insertionSort (fun a b => b.updated_at ≤ a.updated_at)) :
    get_test_cases_for_suite st r.id = get_test_cases_for_suite s r.id := by
  obtain ⟨A, B, hAB⟩ := List.append_of_mem hr
  have hidsN : ((A ++ r :: B).map (fun x => x.id)).Nodup := by
    rw [← hAB]
    exact ((List.perm_insertionSort
      (fun (a b : SuiteRow) => b.updated_at ≤ a.updated_at) s.test_suites).map
      (fun x => x.id)).nodup_iff.mpr hnodupS
  rw [List.map_append, List.map_cons] at hidsN
  have hsplit := List.nodup_append.mp hidsN
  have hA_ne : ∀ p ∈ A, p.id ≠ r.id := by
    intro p hp hpe
    exact hsplit.2.2 (List.mem_map_of_mem _ hp)
      (by rw [hpe]; exact List.mem_cons_self _ _)
  have hB_ne : ∀ p ∈ B, p.id ≠ r.id := by
    intro p hp hpe
    have hrB : r.id ∉ B.map (fun x => x.id) := (List.nodup_cons.mp hsplit.2.1).1
    exact hrB (by rw [← hpe]; exact List.mem_map_of_mem _ hp)
  apply get_cases_of_mid_block st r.id (get_test_cases_for_suite s r.id)
    (s.test_cases.filter (fun c => ∀ p ∈ A ++ r :: B, c.test_suite_id ≠ p.id) ++
      (A.map (fun p => encodedCaseRows p.id 0
        (get_test_cases_for_suite s p.id))).flatten)
    ((B.map (fun p => encodedCaseRows p.id 0
      (get_test_cases_for_suite s p.id))).flatten)
  · rw [hst, hAB, List.map_append, List.map_cons, List.flatten_append,
      List.flatten_cons]
    simp [List.append_assoc]
  · intro row hrow
    rcases List.mem_append.mp hrow with h1 | h1
    · have hall := (List.mem_filter.mp h1).2
      simp only [decide_eq_true_eq] at hall
      exact hall r (List.mem_append_right _ (List.mem_cons_self r B))
    · obtain ⟨blk, hblk, hrowblk⟩ := List.mem_flatten.mp h1
      obtain ⟨p, hp, hpe⟩ := List.mem_map.mp hblk
      subst hpe
      have hsid := mem_encodedCaseRows_suite_id p.id 0
        (get_test_cases_for_suite s p.id) row hrowblk
      rw [hsid]
      exact hA_ne p hp
  · intro row hrow
    obtain ⟨blk, hblk, hrowblk⟩ := List.mem_flatten.mp hrow
    obtain ⟨p, hp, hpe⟩ := List.mem_map.mp hblk
    subst hpe
    have hsid := mem_encodedCaseRows_suite_id p.id 0
      (get_test_cases_for_suite s p.id) row hrowblk
    rw [hsid]
    exact hB_ne p hp

/-- After the runs phase of a round trip, reading any run's results from
the rewritten table gives the same list the first read gave. -/
theorem read_results_after_roundtrip (s st : DbState)
    (hnodupR : (s.runs.map (fun r => r.id)).Nodup)
    (hst : st.test_case_results =
      s.test_case_results.filter (fun c =>
        ∀ p ∈ s.runs.insertionSort
          (fun (a b : RunRow) => b.started_at ≤ a.started_at),
          c.run_id ≠ p.id) ++
      ((s.runs.insertionSort (fun a b => b.started_at ≤ a.started_at)).map
        (fun p => (get_results_for_run s p.id).map (encodeResultRow p.id))).flatten)
    (r : RunRow)
    (hr : r ∈ s.runs.insertionSort (fun a b => b.started_at ≤ a.started_at)) :
    get_results_for_run st r.id = get_results_for_run s r.id := by
  obtain ⟨A, B, hAB⟩ := List.append_of_mem hr
  have hidsN : ((A ++ r :: B).map (fun x => x.id)).Nodup := by
    rw [← hAB]
    exact ((List.perm_insertionSort
      (fun (a b : RunRow) => b.started_at ≤ a.started_at) s.runs).map
      (fun x => x.id)).nodup_iff.mpr hnodupR
  rw [List.map_append, List.map_cons] at hidsN
  have hsplit := List.nodup_append.mp hidsN
  have hA_ne : ∀ p ∈ A, p.id ≠ r.id := by
    intro p hp hpe
    exact hsplit.2.2 (List.mem_map_of_mem _ hp)
      (by rw [hpe]; exact List.mem_cons_self _ _)
  have hB_ne : ∀ p ∈ B, p.id ≠ r.id := by
    intro p hp hpe
    have hrB : r.id ∉ B.map (fun x => x.id) := (List.nodup_cons.mp hsplit.2.1).1
    exact hrB (by rw [← hpe]; exact List.mem_map_of_mem _ hp)
  apply get_results_of_mid_block st r.id (get_results_for_run s r.id)
    (s.test_case_results.filter (fun c => ∀ p ∈ A ++ r :: B, c.run_id ≠ p.id) ++
      (A.map (fun p => (get_results_for_run s p.id).map
        (encodeResultRow p.id))).flatten)
    ((B.map (fun p => (get_results_for_run s p.id).map
      (encodeResultRow p.id))).flatten)
  · rw [hst, hAB, List.map_append, List.map_cons, List.flatten_append,
      List.flatten_cons]
    simp [List.append_assoc]
  · intro row hrow
    rcases List.mem_append.mp hrow with h1 | h1
    · have hall := (List.mem_filter.mp h1).2
      simp only [decide_eq_true_eq] at hall
      exact hall r (List.mem_append_right _ (List.mem_cons_self r B))
    · obtain ⟨blk, hblk, hrowblk⟩ := List.mem_flatten.mp h1
      obtain ⟨p, hp, hpe⟩ := List.mem_map.mp hblk
      subst hpe
      obtain ⟨res, hres, hrfl⟩ := List.mem_map.mp hrowblk
      subst hrfl
      show (encodeResultRow p.id res).run_id ≠ r.id
      exact hA_ne p hp
  · intro row hrow
    obtain ⟨blk, hblk, hrowblk⟩ := List.mem_flatten.mp hrow
    obtain ⟨p, hp, hpe⟩ := List.mem_map.mp hblk
    subst hpe
    obtain ⟨res, hres, hrfl⟩ := List.mem_map.mp hrowblk
    subst hrfl
    show (encodeResultRow p.id res).run_id ≠ r.id
    exact hB_ne p hp

/-- Claim C6: for any stored state whose primary keys hold (distinct
suite ids, case ids and run ids — what SQLite's `PRIMARY KEY` columns
guarantee), reading a snapshot, writing the unmodified document back and
reading again succeeds and yields a document equal to the first read in
every field except the stamped `updated_at`; the stamped `version` is the
constant target version both times. -/
theorem snapshot_roundtrip (s : DbState) (t1 t2 : Int)
    (hnodupS : (s.test_suites.map (fun r => r.id)).Nodup)
    (hnodupC : (s.test_cases.map (fun c => c.id)).Nodup)
    (hnodupR : (s.runs.map (fun r => r.id)).Nodup) :
    ∃ s', write_snapshot s (read_snapshot s t1) = .ok s' ∧
      (read_snapshot s' t2).test_suites = (read_snapshot s t1).test_suites ∧
      (read_snapshot s' t2).runs = (read_snapshot s t1).runs ∧
      (read_snapshot s' t2).active_test_suite_id =
        (read_snapshot s t1).active_test_suite_id ∧
      (read_snapshot s' t2).current_run_id =
        (read_snapshot s t1).current_run_id ∧
      (read_snapshot s' t2).version = (read_snapshot s t1).version := by
  -- phase A: the suites loop
  have hA0 := writeSuitesLoop_roundtrip s hnodupS hnodupC
    (s.test_suites.insertionSort (fun a b => b.updated_at ≤ a.updated_at)) []
    (List.nil_append _)
  have hbaseC : s.test_cases.filter
      (fun c => ∀ p ∈ ([] : List SuiteRow), c.test_suite_id ≠ p.id) ++
      (([] : List SuiteRow).map (fun p => encodedCaseRows p.id 0
        (get_test_cases_for_suite s p.id))).flatten = s.test_cases := by
    simp
  rw [hbaseC, List.nil_append] at hA0
  have hA : writeSuitesLoop (read_snapshot s t1).test_suites s = .ok
      { s with test_cases :=
        s.test_cases.filter (fun c =>
          ∀ p ∈ s.test_suites.insertionSort
            (fun (a b : SuiteRow) => b.updated_at ≤ a.updated_at),
            c.test_suite_id ≠ p.id) ++
        ((s.test_suites.insertionSort (fun a b => b.updated_at ≤ a.updated_at)).map
          (fun p => encodedCaseRows p.id 0
            (get_test_cases_for_suite s p.id))).flatten } := hA0
  -- suite ids of the read document
  have hids : (read_snapshot s t1).test_suites.map (fun t => t.id) =
      (s.test_suites.insertionSort
        (fun (a b : SuiteRow) => b.updated_at ≤ a.updated_at)).map
        (fun x => x.id) := by
    show (((s.test_suites.insertionSort
      (fun (a b : SuiteRow) => b.updated_at ≤ a.updated_at)).map
      (fun r => decodeSuiteRow r (get_test_cases_for_suite s r.id))).map
      (fun t => t.id)) = _
    rw [List.map_map]
    rfl
  -- the delete-not-present pass on suites deletes nothing
  have hDelS : cascadeDeleteSuites
      { s with test_cases :=
        s.test_cases.filter (fun c =>
          ∀ p ∈ s.test_suites.insertionSort
            (fun (a b : SuiteRow) => b.updated_at ≤ a.updated_at),
            c.test_suite_id ≠ p.id) ++
        ((s.test_suites.insertionSort (fun a b => b.updated_at ≤ a.updated_at)).map
          (fun p => encodedCaseRows p.id 0
            (get_test_cases_for_suite s p.id))).flatten }
      (fun r => r.id ∉ (read_snapshot s t1).test_suites.map (fun t => t.id)) =
      { s with test_cases :=
        s.test_cases.filter (fun c =>
          ∀ p ∈ s.test_suites.insertionSort
            (fun (a b : SuiteRow) => b.updated_at ≤ a.updated_at),
            c.test_suite_id ≠ p.id) ++
        ((s.test_suites.insertionSort (fun a b => b.updated_at ≤ a.updated_at)).map
          (fun p => encodedCaseRows p.id 0
            (get_test_cases_for_suite s p.id))).flatten } := by
    apply cascadeDeleteSuites_noop
    intro r hr
    have hr' : r ∈ s.test_suites := hr
    intro hcon
    exact hcon (by
      rw [hids]
      exact List.mem_map_of_mem _ ((List.perm_insertionSort
        (fun (a b : SuiteRow) => b.updated_at ≤ a.updated_at)
        s.test_suites).mem_iff.mpr hr'))
  -- phase B: the runs loop over the rewritten case table
  have hB0 := writeRunsLoop_roundtrip s hnodupR
    (s.test_cases.filter (fun c =>
      ∀ p ∈ s.test_suites.insertionSort
        (fun (a b : SuiteRow) => b.updated_at ≤ a.updated_at),
        c.test_suite_id ≠ p.id) ++
    ((s.test_suites.insertionSort (fun a b => b.updated_at ≤ a.updated_at)).map
      (fun p => encodedCaseRows p.id 0
        (get_test_cases_for_suite s p.id))).flatten)
    (s.runs.insertionSort (fun a b => b.started_at ≤ a.started_at)) []
    (List.nil_append _)
  have hbaseR : s.test_case_results.filter
      (fun c => ∀ p ∈ ([] : List RunRow), c.run_id ≠ p.id) ++
      (([] : List RunRow).map (fun p => (get_results_for_run s p.id).map
        (encodeResultRow p.id))).flatten = s.test_case_results := by
    simp
  rw [hbaseR, List.nil_append] at hB0
  have hB : writeRunsLoop (read_snapshot s t1).runs
      { s with test_cases :=
        s.test_cases.filter (fun c =>
          ∀ p ∈ s.test_suites.insertionSort
            (fun (a b : SuiteRow) => b.updated_at ≤ a.updated_at),
            c.test_suite_id ≠ p.id) ++
        ((s.test_suites.insertionSort (fun a b => b.updated_at ≤ a.updated_at)).map
          (fun p => encodedCaseRows p.id 0
            (get_test_cases_for_suite s p.id))).flatten } = .ok
      { s with
        test_cases :=
          s.test_cases.filter (fun c =>
            ∀ p ∈ s.test_suites.insertionSort
              (fun (a b : SuiteRow) => b.updated_at ≤ a.updated_at),
              c.test_suite_id ≠ p.id) ++
          ((s.test_suites.insertionSort
            (fun a b => b.updated_at ≤ a.updated_at)).map
            (fun p => encodedCaseRows p.id 0
              (get_test_cases_for_suite s p.id))).flatten
        test_case_results :=
          s.test_case_results.filter (fun c =>
            ∀ p ∈ s.runs.insertionSort
              (fun (a b : RunRow) => b.started_at ≤ a.started_at),
              c.run_id ≠ p.id) ++
          ((s.runs.insertionSort (fun a b => b.started_at ≤ a.started_at)).map
            (fun p => (get_results_for_run s p.id).map
              (encodeResultRow p.id))).flatten } := hB0
  have hidsR : (read_snapshot s t1).runs.map (fun t => t.id) =
      (s.runs.insertionSort
        (fun (a b : RunRow) => b.started_at ≤ a.started_at)).map
        (fun x => x.id) := by
    show (((s.runs.insertionSort
      (fun (a b : RunRow) => b.started_at ≤ a.started_at)).map
      (fun r => decodeRunRow r (get_results_for_run s r.id))).map
      (fun t => t.id)) = _
    rw [List.map_map]
    rfl
  have hDelR : cascadeDeleteRuns
      { s with
        test_cases :=
          s.test_cases.filter (fun c =>
            ∀ p ∈ s.test_suites.insertionSort
              (fun (a b : SuiteRow) => b.updated_at ≤ a.updated_at),
              c.test_suite_id ≠ p.id) ++
          ((s.test_suites.insertionSort
            (fun a b => b.updated_at ≤ a.updated_at)).map
            (fun p => encodedCaseRows p.id 0
              (get_test_cases_for_suite s p.id))).flatten
        test_case_results :=
          s.test_case_results.filter (fun c =>
            ∀ p ∈ s.runs.insertionSort
              (fun (a b : RunRow) => b.started_at ≤ a.started_at),
              c.run_id ≠ p.id) ++
          ((s.runs.insertionSort (fun a b => b.started_at ≤ a.started_at)).map
            (fun p => (get_results_for_run s p.id).map
              (encodeResultRow p.id))).flatten }
      (fun r => r.id ∉ (read_snapshot s t1).runs.map (fun t => t.id)) =
      { s with
        test_cases :=
          s.test_cases.filter (fun c =>
            ∀ p ∈ s.test_suites.insertionSort
              (fun (a b : SuiteRow) => b.updated_at ≤ a.updated_at),
              c.test_suite_id ≠ p.id) ++
          ((s.test_suites.insertionSort
            (fun a b => b.updated_at ≤ a.updated_at)).map
            (fun p => encodedCaseRows p.id 0
              (get_test_cases_for_suite s p.id))).flatten
        test_case_results :=
          s.test_case_results.filter (fun c =>
            ∀ p ∈ s.runs.insertionSort
              (fun (a b : RunRow) => b.started_at ≤ a.started_at),
              c.run_id ≠ p.id) ++
          ((s.runs.insertionSort (fun a b => b.started_at ≤ a.started_at)).map
            (fun p => (get_results_for_run s p.id).map
              (encodeResultRow p.id))).flatten } := by
    apply cascadeDeleteRuns_noop
    intro r hr
    have hr' : r ∈ s.runs := hr
    intro hcon
    exact hcon (by
      rw [hidsR]
      exact List.mem_map_of_mem _ ((List.perm_insertionSort
        (fun (a b : RunRow) => b.started_at ≤ a.started_at)
        s.runs).mem_iff.mpr hr'))
  -- compose the write
  have hwrite : write_snapshot s (read_snapshot s t1) = .ok
      (updateAppStateRow
        { s with
          test_cases :=
            s.test_cases.filter (fun c =>
              ∀ p ∈ s.test_suites.insertionSort
                (fun (a b : SuiteRow) => b.updated_at ≤ a.updated_at),
                c.test_suite_id ≠ p.id) ++
            ((s.test_suites.insertionSort
              (fun a b => b.updated_at ≤ a.updated_at)).map
              (fun p => encodedCaseRows p.id 0
                (get_test_cases_for_suite s p.id))).flatten
          test_case_results :=
            s.test_case_results.filter (fun c =>
              ∀ p ∈ s.runs.insertionSort
                (fun (a b : RunRow) => b.started_at ≤ a.started_at),
                c.run_id ≠ p.id) ++
            ((s.runs.insertionSort (fun a b => b.started_at ≤ a.started_at)).map
              (fun p => (get_results_for_run s p.id).map
                (encodeResultRow p.id))).flatten }
        (read_snapshot s t1).active_test_suite_id
        (read_snapshot s t1).current_run_id) := by
    unfold write_snapshot
    rw [hA]
    show (match writeRunsLoop (read_snapshot s t1).runs
        (cascadeDeleteSuites
          { s with test_cases :=
            s.test_cases.filter (fun c =>
              ∀ p ∈ s.test_suites.insertionSort
                (fun (a b : SuiteRow) => b.updated_at ≤ a.updated_at),
                c.test_suite_id ≠ p.id) ++
            ((s.test_suites.insertionSort
              (fun a b => b.updated_at ≤ a.updated_at)).map
              (fun p => encodedCaseRows p.id 0
                (get_test_cases_for_suite s p.id))).flatten }
          (fun r => r.id ∉ (read_snapshot s t1).test_suites.map
            (fun t : TestSuite => t.id))) with
      | .error e => (.error e : DbResult)
      | .ok s3 => .ok (updateAppStateRow
          (cascadeDeleteRuns s3
            (fun r => r.id ∉ (read_snapshot s t1).runs.map
              (fun t : RunResult => t.id)))
          (read_snapshot s t1).active_test_suite_id
          (read_snapshot s t1).current_run_id)) = _
    rw [hDelS, hB]
    show (Except.ok (updateAppStateRow
        (cascadeDeleteRuns
          { s with
            test_cases :=
              s.test_cases.filter (fun c =>
                ∀ p ∈ s.test_suites.insertionSort
                  (fun (a b : SuiteRow) => b.updated_at ≤ a.updated_at),
                  c.test_suite_id ≠ p.id) ++
              ((s.test_suites.insertionSort
                (fun a b => b.updated_at ≤ a.updated_at)).map
                (fun p => encodedCaseRows p.id 0
                  (get_test_cases_for_suite s p.id))).flatten
            test_case_results :=
              s.test_case_results.filter (fun c =>
                ∀ p ∈ s.runs.insertionSort
                  (fun (a b : RunRow) => b.started_at ≤ a.started_at),
                  c.run_id ≠ p.id) ++
              ((s.runs.insertionSort
                (fun a b => b.started_at ≤ a.started_at)).map
                (fun p => (get_results_for_run s p.id).map
                  (encodeResultRow p.id))).flatten }
          (fun r => r.id ∉ (read_snapshot s t1).runs.map
            (fun t : RunResult => t.id)))
        (read_snapshot s t1).active_test_suite_id
        (read_snapshot s t1).current_run_id) : DbResult) = _
    rw [hDelR]
  -- the written state and its reads
  have happ : (updateAppStateRow
      { s with
        test_cases :=
          s.test_cases.filter (fun c =>
            ∀ p ∈ s.test_suites.insertionSort
              (fun (a b : SuiteRow) => b.updated_at ≤ a.updated_at),
              c.test_suite_id ≠ p.id) ++
          ((s.test_suites.insertionSort
            (fun a b => b.updated_at ≤ a.updated_at)).map
            (fun p => encodedCaseRows p.id 0
              (get_test_cases_for_suite s p.id))).flatten
        test_case_results :=
          s.test_case_results.filter (fun c =>
            ∀ p ∈ s.runs.insertionSort
              (fun (a b : RunRow) => b.started_at ≤ a.started_at),
              c.run_id ≠ p.id) ++
          ((s.runs.insertionSort (fun a b => b.started_at ≤ a.started_at)).map
            (fun p => (get_results_for_run s p.id).map
              (encodeResultRow p.id))).flatten }
      (read_snapshot s t1).active_test_suite_id
      (read_snapshot s t1).current_run_id).app_state = s.app_state := by
    show s.app_state.map (fun _ => ((s.app_state.getD (none, none)).1,
      (s.app_state.getD (none, none)).2)) = s.app_state
    exact option_map_pointer_self s.app_state
  refine ⟨_, hwrite, ?_, ?_, ?_, ?_, rfl⟩
  · show ((s.test_suites.insertionSort
        (fun (a b : SuiteRow) => b.updated_at ≤ a.updated_at)).map
        (fun r => decodeSuiteRow r (get_test_cases_for_suite
          (updateAppStateRow
            { s with
              test_cases :=
                s.test_cases.filter (fun c =>
                  ∀ p ∈ s.test_suites.insertionSort
                    (fun (a b : SuiteRow) => b.updated_at ≤ a.updated_at),
                    c.test_suite_id ≠ p.id) ++
                ((s.test_suites.insertionSort
                  (fun a b => b.updated_at ≤ a.updated_at)).map
                  (fun p => encodedCaseRows p.id 0
                    (get_test_cases_for_suite s p.id))).flatten
              test_case_results :=
                s.test_case_results.filter (fun c =>
                  ∀ p ∈ s.runs.insertionSort
                    (fun (a b : RunRow) => b.started_at ≤ a.started_at),
                    c.run_id ≠ p.id) ++
                ((s.runs.insertionSort
                  (fun a b => b.started_at ≤ a.started_at)).map
                  (fun p => (get_results_for_run s p.id).map
                    (encodeResultRow p.id))).flatten }
            (read_snapshot s t1).active_test_suite_id
            (read_snapshot s t1).current_run_id) r.id))) =
      ((s.test_suites.insertionSort
        (fun (a b : SuiteRow) => b.updated_at ≤ a.updated_at)).map
        (fun r => decodeSuiteRow r (get_test_cases_for_suite s r.id)))
    apply List.map_congr_left
    intro r hrS
    rw [read_cases_after_roundtrip s _ hnodupS rfl r hrS]
  · show ((s.runs.insertionSort
        (fun (a b : RunRow) => b.started_at ≤ a.started_at)).map
        (fun r => decodeRunRow r (get_results_for_run
          (updateAppStateRow
            { s with
              test_cases :=
                s.test_cases.filter (fun c =>
                  ∀ p ∈ s.test_suites.insertionSort
                    (fun (a b : SuiteRow) => b.updated_at ≤ a.updated_at),
                    c.test_suite_id ≠ p.id) ++
                ((s.test_suites.insertionSort
                  (fun a b => b.updated_at ≤ a.updated_at)).map
                  (fun p => encodedCaseRows p.id 0
                    (get_test_cases_for_suite s p.id))).flatten
              test_case_results :=
                s.test_case_results.filter (fun c =>
                  ∀ p ∈ s.runs.insertionSort
                    (fun (a b : RunRow) => b.started_at ≤ a.started_at),
                    c.run_id ≠ p.id) ++
                ((s.runs.insertionSort
                  (fun a b => b.started_at ≤ a.started_at)).map
                  (fun p => (get_results_for_run s p.id).map
                    (encodeResultRow p.id))).flatten }
            (read_snapshot s t1).active_test_suite_id
            (read_snapshot s t1).current_run_id) r.id))) =
      ((s.runs.insertionSort
        (fun (a b : RunRow) => b.started_at ≤ a.started_at)).map
        (fun r => decodeRunRow r (get_results_for_run s r.id)))
    apply List.map_congr_left
    intro r hrR
    rw [read_results_after_roundtrip s _ hnodupR rfl r hrR]
  · show ((updateAppStateRow
        { s with
          test_cases :=
            s.test_cases.filter (fun c =>
              ∀ p ∈ s.test_suites.insertionSort
                (fun (a b : SuiteRow) => b.updated_at ≤ a.updated_at),
                c.test_suite_id ≠ p.id) ++
            ((s.test_suites.insertionSort
              (fun a b => b.updated_at ≤ a.updated_at)).map
              (fun p => encodedCaseRows p.id 0
                (get_test_cases_for_suite s p.id))).flatten
          test_case_results :=
            s.test_case_results.filter (fun c =>
              ∀ p ∈ s.runs.insertionSort
                (fun (a b : RunRow) => b.started_at ≤ a.started_at),
                c.run_id ≠ p.id) ++
            ((s.runs.insertionSort (fun a b => b.started_at ≤ a.started_at)).map
              (fun p => (get_results_for_run s p.id).map
                (encodeResultRow p.id))).flatten }
        (read_snapshot s t1).active_test_suite_id
        (read_snapshot s t1).current_run_id).app_state.getD (none, none)).1 =
      ((s.app_state.getD (none, none)).1)
    rw [happ]
  · show ((updateAppStateRow
        { s with
          test_cases :=
            s.test_cases.filter (fun c =>
              ∀ p ∈ s.test_suites.insertionSort
                (fun (a b : SuiteRow) => b.updated_at ≤ a.updated_at),
                c.test_suite_id ≠ p.id) ++
            ((s.test_suites.insertionSort
              (fun a b => b.updated_at ≤ a.updated_at)).map
              (fun p => encodedCaseRows p.id 0
                (get_test_cases_for_suite s p.id))).flatten
          test_case_results :=
            s.test_case_results.filter (fun c =>
              ∀ p ∈ s.runs.insertionSort
                (fun (a b : RunRow) => b.started_at ≤ a.started_at),
                c.run_id ≠ p.id) ++
            ((s.runs.insertionSort (fun a b => b.started_at ≤ a.started_at)).map
              (fun p => (get_results_for_run s p.id).map
                (encodeResultRow p.id))).flatten }
        (read_snapshot s t1).active_test_suite_id
        (read_snapshot s t1).current_run_id).app_state.getD (none, none)).2 =
      ((s.app_state.getD (none, none)).2)
    rw [happ]

/-- Witness for C6 on the populated store: the write of the read document
succeeds and the second read repeats the first. -/
theorem snapshot_roundtrip_witness :
    ∃ s', write_snapshot populatedDbState (read_snapshot populatedDbState 11) = .ok s' ∧
      (read_snapshot s' 12).test_suites = (read_snapshot populatedDbState 11).test_suites ∧
      (read_snapshot s' 12).runs = (read_snapshot populatedDbState 11).runs ∧
      (read_snapshot s' 12).active_test_suite_id =
        (read_snapshot populatedDbState 11).active_test_suite_id := by
  obtain ⟨s', hok, h1, h2, h3, _, _⟩ :=
    snapshot_roundtrip populatedDbState 11 12 (by decide) (by decide) (by decide)
  exact ⟨s', hok, h1, h2, h3⟩
